import Mathlib

/-!
# Revogi cloud client: command dispatch and session renewal

A shallow embedding of `revogi.go` / `types.go`.

* The Go receiver `c *client` becomes an explicit `client` record that is
  threaded through every operation together with a `World` record holding the
  observable effects (requests handed to `PostForm`, arguments of
  `time.Sleep`, lines printed through the logger).
* The `HttpClient` interface value becomes a function from the history of
  requests to the answer of `PostForm`.
* Functions of the Go standard library (`encoding/json`, `strconv.Unquote`)
  are not part of the repository; they are taken as a parameter `Stdlib`.
* `doRequest` is recursive and need not terminate, so it carries a fuel
  argument; `Outcome.outOfFuel` marks a run that was cut off.
* Go run-time panics (nil dereference, index out of range) are the
  `Outcome.fault` results.
-/

namespace Revogi

/-! ## Data model (`types.go`) -/

/-- Two's-complement wrap-around of a Go `int64`. -/
def wrapInt64 (x : Int) : Int := (x + 2 ^ 63) % 2 ^ 64 - 2 ^ 63

/-- Constant `apiHost`. -/
def apiHost : String := "server.revogi.net"

/-- Constant `protocol`. -/
def protocol : String := "3"

/-- Type `DeviceConfig`; the Go maps are association lists. -/
structure DeviceConfig where
  State : List (Int × Int)
  Usage : List (Int × Int)
deriving DecidableEq, Repr

/-- Type `Config`. `Logger` records whether the `*log.Logger` is non-nil. -/
structure Config where
  Username : String
  Password : String
  Interval : Int
  MaxRetries : Int
  Cooldown : Int
  Devices : List (String × DeviceConfig)
  Logger : Bool
deriving DecidableEq, Repr

/-- Type `DeviceStats`. -/
structure DeviceStats where
  Softver : String
  Amp : List Int
  Online : Int
  Sn : String
  Watt : List Int
  Switch : List Int
deriving DecidableEq, Repr

/-- Type `Device`; `Stats` is a possibly nil pointer. -/
structure Device where
  Ver : String
  Pname : List String
  Nver : String
  Line : Int
  SocketType : String
  Ip : String
  Mac : String
  DateAdded : String
  Name : String
  GatewayIp : String
  Sn : String
  Protect : Int
  Sak : String
  Register : Int
  Stats : Option DeviceStats
deriving DecidableEq, Repr

/-- The zero value `Device{}` (also `var device Device`). -/
def Device.zero : Device :=
  { Ver := "", Pname := [], Nver := "", Line := 0, SocketType := "", Ip := "", Mac := "",
    DateAdded := "", Name := "", GatewayIp := "", Sn := "", Protect := 0, Sak := "",
    Register := 0, Stats := none }

/-- The zero value `DeviceStats{}`. -/
def DeviceStats.zero : DeviceStats :=
  { Softver := "", Amp := [], Online := 0, Sn := "", Watt := [], Switch := [] }

/-- Type `devicesData`. -/
structure devicesData where
  Dev : List Device
  Url : String
deriving DecidableEq, Repr

/-- Type `revogiResponseBody`; `Data` is the raw text of the `json.RawMessage`. -/
structure revogiResponseBody where
  Code : Int
  Data : String
  Response : Int
  Sn : String
deriving DecidableEq, Repr

/-- Type `loginData`. -/
structure loginData where
  UserId : String
  Domain : String
  Name : String
  RegId : String
  Avatar : String
  Message : String
  Url : String
  Token : String
deriving DecidableEq, Repr

/-! ## Environment: transport, standard library, effects -/

/-- A value placed in a payload map handed to `json.Marshal`. -/
inductive Payload where
  | str (s : String)
  | int (i : Int)
  | strs (l : List String)
deriving DecidableEq, Repr

/-- The form handed to `PostForm` together with the target URL. The field
`tokenlogin` is present only when `postBody.Add("tokenlogin", c.token)` ran. -/
structure Request where
  url : String
  cmd : String
  json : String
  tokenlogin : Option String
deriving DecidableEq, Repr

/-- What `PostForm` returns: a non-nil error, or a response with its status
code and body bytes. -/
inductive PostResult where
  | err (msg : String)
  | resp (statusCode : Int) (body : String)
deriving DecidableEq, Repr

/-- The `HttpClient` interface value: the answer to a `PostForm` call may
depend on all requests made before it (most recent first) and on the request. -/
abbrev HttpClient := List Request → Request → PostResult

/-- The functions of the Go standard library that the client calls.
Each `unmarshal...` field is `json.Unmarshal` into a fresh zero value of the
target type; `none` is a non-nil error. `marshal` is `json.Marshal` on a map
of strings and integers, which cannot fail. -/
structure Stdlib where
  marshal : List (String × Payload) → String
  decodeBody : String → Option revogiResponseBody
  unmarshalLoginData : String → Option loginData
  unmarshalDevicesData : String → Option devicesData
  unmarshalDeviceStats : String → Option (List DeviceStats)
  unquote : String → Option String

/-- Go `error` values produced by the client, one constructor per message. -/
inductive Err where
  /-- `errors.Wrap(err, "request failed")` around a `PostForm` error. -/
  | postFailed (cause : String)
  /-- `unexpected http response code: %d`. -/
  | httpStatus (code : Int)
  /-- `errors.Wrap(err, "failed to read body")`. -/
  | readBody
  /-- `reached max token renewal attempts (%d)`. -/
  | maxRenewals (maxRetries : Int)
  /-- `errors.Wrapf(err, "renew failed")`. -/
  | renewFailed (cause : Err)
  /-- `unexpected json response code: %d, body: %s`. -/
  | jsonCode (code : Int) (data : String)
  /-- `errors.Wrap(err, "request failed")` in `Login`. -/
  | loginRequest (cause : Err)
  /-- The error of a failed `json.Unmarshal`, returned as is. -/
  | unmarshal
  /-- `failed to unquote body: %s`. -/
  | unquoteFailed (data : String)
  /-- `unexpected result: %s`. -/
  | unexpectedResult (result : String)
deriving DecidableEq, Repr

/-- Go run-time panics that the client can raise. -/
inductive Fault where
  | nilPointer
  | indexOutOfRange
deriving DecidableEq, Repr

/-- Result of running an operation. -/
inductive Outcome (α : Type) where
  | ok (a : α)
  | error (e : Err)
  | fault (p : Fault)
  | outOfFuel
deriving DecidableEq, Repr

/-- Observable effects, most recent first. -/
structure World where
  sent : List Request
  slept : List Int
  printed : List String
deriving DecidableEq, Repr

/-- The world before any effect. -/
def World.empty : World := { sent := [], slept := [], printed := [] }

/-- Effect of `c.client.PostForm(url, postBody)`. -/
def World.send (w : World) (req : Request) : World := { w with sent := req :: w.sent }

/-- Effect of `time.Sleep(d)`, `d` in nanoseconds. -/
def World.sleep (w : World) (d : Int) : World := { w with slept := d :: w.slept }

/-- Effect of `c.logger.Println(line)` on a non-nil logger. -/
def World.print (w : World) (line : String) : World := { w with printed := line :: w.printed }

/-- Type `client` (the `HttpClient` field is passed separately). `logger`
records whether `c.logger` is non-nil. -/
structure client where
  logger : Bool
  config : Config
  domain : String
  token : String
  retries : Int
deriving DecidableEq, Repr

/-- The tuple returned by a model operation: result, receiver, effects. -/
abbrev Step (α : Type) := Outcome α × client × World

/-! ## Operations (`revogi.go`) -/

/-- Function `NewClient`: the logger is set only when `config.Logger == nil`;
otherwise `c.logger` keeps its zero value nil. -/
def NewClient (config : Config) : client :=
  { logger := if config.Logger = false then true else false,
    config := config, domain := "", token := "", retries := 0 }

/-- The URL and form that `doRequest` hands to `PostForm`. -/
def mkRequest (c : client) (cmd : Int) (postData : String) (tokenLogin : Bool) : Request :=
  { url := "https://" ++ (if c.domain = "" then apiHost else c.domain) ++ "/services/ajax.html",
    cmd := toString cmd,
    json := postData,
    tokenlogin := if tokenLogin then some c.token else none }

/-- Duration in nanoseconds of `time.Second * time.Duration(c.config.Cooldown)`. -/
def cooldownDuration (config : Config) : Int := wrapInt64 (1000000000 * config.Cooldown)

/-- Body of `Login`, with the dispatcher it calls as an argument. -/
def loginWith (L : Stdlib)
    (dispatch : Int → String → Bool → client → World → Step revogiResponseBody)
    (c : client) (w : World) : Step Unit :=
  let postData := L.marshal [("username", .str c.config.Username),
                             ("password", .str c.config.Password)]
  match dispatch 101 postData false c w with
  | (.error e, c1, w1) => (.error (.loginRequest e), c1, w1)
  | (.fault p, c1, w1) => (.fault p, c1, w1)
  | (.outOfFuel, c1, w1) => (.outOfFuel, c1, w1)
  | (.ok body, c1, w1) =>
    match L.unmarshalLoginData body.Data with
    | none => (.error .unmarshal, c1, w1)
    | some d => (.ok (), { c1 with domain := d.Domain, token := d.Token }, w1)

/-- Method `client.doRequest`. One unit of fuel is spent per activation.
`c.retries++` is reached only when `c.retries < c.config.MaxRetries`, so the
increment cannot overflow a Go `int`. -/
def doRequest (L : Stdlib) (h : HttpClient) :
    Nat → Int → String → Bool → client → World → Step revogiResponseBody
  | 0, _, _, _, c, w => (.outOfFuel, c, w)
  | fuel + 1, cmd, postData, tokenLogin, c, w =>
    let req := mkRequest c cmd postData tokenLogin
    let w1 := w.send req
    match h w.sent req with
    | .err msg => (.error (.postFailed msg), c, w1)
    | .resp statusCode body =>
      if statusCode ≠ 200 then (.error (.httpStatus statusCode), c, w1)
      else
        match L.decodeBody body with
        | none => (.error .readBody, c, w1)
        | some respBody =>
          if tokenLogin = true ∧ respBody.Code = 401 then
            if c.retries ≥ c.config.MaxRetries then
              (.error (.maxRenewals c.config.MaxRetries), c, w1)
            else if c.logger = false then (.fault .nilPointer, c, w1)
            else
              let w2 := w1.print "token expired. attempting to renew"
              match loginWith L (doRequest L h fuel) c w2 with
              | (.error e, c3, w3) =>
                (.error (.renewFailed e), { c3 with retries := c3.retries + 1 }, w3)
              | (.fault p, c3, w3) => (.fault p, c3, w3)
              | (.outOfFuel, c3, w3) => (.outOfFuel, c3, w3)
              | (.ok _, c3, w3) =>
                doRequest L h fuel cmd postData tokenLogin { c3 with retries := 0 } w3
          else if respBody.Code ≠ 200 then
            let w2 := if respBody.Code = 500 then w1.sleep (cooldownDuration c.config) else w1
            (.error (.jsonCode respBody.Code respBody.Data), c, w2)
          else (.ok respBody, c, w1)

/-- Method `client.Login`. -/
def Login (L : Stdlib) (h : HttpClient) (fuel : Nat) (c : client) (w : World) : Step Unit :=
  loginWith L (doRequest L h fuel) c w


/-- Function `strings.Split` for a one-character separator, on characters. -/
def splitChars (sep : Char) : List Char → List (List Char)
  | [] => [[]]
  | c :: cs =>
    if c = sep then [] :: splitChars sep cs
    else
      match splitChars sep cs with
      | [] => [[c]]
      | f :: fs => (c :: f) :: fs

/-- Function `strings.Split(s, sep)` for a one-character separator. -/
def Split (s : String) (sep : Char) : List String := (splitChars sep s.data).map String.mk

/-- Method `client.GetDevice`. -/
def GetDevice (L : Stdlib) (h : HttpClient) (fuel : Nat) (dev : Device)
    (c : client) (w : World) : Step Device :=
  let postData := L.marshal [("protocol", .str protocol), ("dev", .str dev.Sn)]
  match doRequest L h fuel 500 postData true c w with
  | (.error e, c1, w1) => (.error e, c1, w1)
  | (.fault p, c1, w1) => (.fault p, c1, w1)
  | (.outOfFuel, c1, w1) => (.outOfFuel, c1, w1)
  | (.ok body, c1, w1) =>
    match L.unmarshalDevicesData body.Data with
    | none => (.error .unmarshal, c1, w1)
    | some d =>
      match d.Dev with
      | first :: _ => (.ok first, c1, w1)
      | [] => (.ok Device.zero, c1, w1)

/-- Method `client.GetDevices`. -/
def GetDevices (L : Stdlib) (h : HttpClient) (fuel : Nat)
    (c : client) (w : World) : Step (List Device) :=
  let postData := L.marshal [("protocol", .str protocol), ("dev", .str "all")]
  match doRequest L h fuel 500 postData true c w with
  | (.error e, c1, w1) => (.error e, c1, w1)
  | (.fault p, c1, w1) => (.fault p, c1, w1)
  | (.outOfFuel, c1, w1) => (.outOfFuel, c1, w1)
  | (.ok body, c1, w1) =>
    match L.unmarshalDevicesData body.Data with
    | none => (.error .unmarshal, c1, w1)
    | some d => (.ok d.Dev, c1, w1)

/-- Method `client.GetDeviceStats`; `deviceStatsResult.Data[0]` panics on an
empty slice. -/
def GetDeviceStats (L : Stdlib) (h : HttpClient) (fuel : Nat) (device : Device)
    (c : client) (w : World) : Step DeviceStats :=
  let postData := L.marshal [("protocol", .str protocol), ("sn", .strs [device.Sn])]
  match doRequest L h fuel 511 postData true c w with
  | (.error e, c1, w1) => (.error e, c1, w1)
  | (.fault p, c1, w1) => (.fault p, c1, w1)
  | (.outOfFuel, c1, w1) => (.outOfFuel, c1, w1)
  | (.ok body, c1, w1) =>
    match L.unmarshalDeviceStats body.Data with
    | none => (.error .unmarshal, c1, w1)
    | some data =>
      match data with
      | first :: _ => (.ok first, c1, w1)
      | [] => (.fault .indexOutOfRange, c1, w1)

/-- The test `results[0] == "send2" && results[1] == device.Sn` of `Power`,
with the index checks of the Go run time and the short circuit of `&&`:
`none` is an index-out-of-range panic. -/
def powerCheck (results : List String) (sn : String) : Option Bool :=
  match results with
  | [] => none
  | r0 :: rest =>
    if r0 = "send2" then
      match rest with
      | [] => none
      | r1 :: _ => some (decide (r1 = sn))
    else some false

/-- Method `client.Power`. -/
def Power (L : Stdlib) (h : HttpClient) (fuel : Nat) (device : Device) (port : Int)
    (state : Bool) (c : client) (w : World) : Step Unit :=
  let intState : Int := if state then 1 else 0
  let postData := L.marshal [("protocol", .str protocol), ("sn", .str device.Sn),
                             ("port", .int port), ("state", .int intState)]
  match doRequest L h fuel 200 postData true c w with
  | (.error e, c1, w1) => (.error e, c1, w1)
  | (.fault p, c1, w1) => (.fault p, c1, w1)
  | (.outOfFuel, c1, w1) => (.outOfFuel, c1, w1)
  | (.ok body, c1, w1) =>
    match L.unquote body.Data with
    | none => (.error (.unquoteFailed body.Data), c1, w1)
    | some result =>
      match powerCheck (Split result ':') device.Sn with
      | none => (.fault .indexOutOfRange, c1, w1)
      | some true => (.ok (), c1, w1)
      | some false => (.error (.unexpectedResult result), c1, w1)


/-- The five operations of the `Client` interface that callers can invoke. -/
inductive Op where
  | login
  | getDevice (dev : Device)
  | getDevices
  | getDeviceStats (device : Device)
  | power (device : Device) (port : Int) (state : Bool)
deriving DecidableEq, Repr

/-- Run one operation and keep the receiver and the effects. -/
def runOp (L : Stdlib) (h : HttpClient) (fuel : Nat) (op : Op) (s : client × World) :
    client × World :=
  match op with
  | .login => (Login L h fuel s.1 s.2).2
  | .getDevice dev => (GetDevice L h fuel dev s.1 s.2).2
  | .getDevices => (GetDevices L h fuel s.1 s.2).2
  | .getDeviceStats device => (GetDeviceStats L h fuel device s.1 s.2).2
  | .power device port state => (Power L h fuel device port state s.1 s.2).2

/-- Run a sequence of operations, each with its own fuel, from left to right. -/
def runOps (L : Stdlib) (h : HttpClient) : List (Nat × Op) → client × World → client × World
  | [], s => s
  | (fuel, op) :: rest, s => runOps L h rest (runOp L h fuel op s)

/-- Issue a sequence of session-required commands `(cmd, postData)` through
`doRequest` with `tokenLogin = true`; the outcomes are listed in call order. -/
def issue (L : Stdlib) (h : HttpClient) (fuel : Nat) :
    List (Int × String) → client → World → List (Outcome revogiResponseBody) × client × World
  | [], c, w => ([], c, w)
  | (cmd, postData) :: rest, c, w =>
    let r := doRequest L h fuel cmd postData true c w
    let t := issue L h fuel rest r.2.1 r.2.2
    (r.1 :: t.1, t.2)

/-- Number of login requests in a trace: `Login` is the only caller that sends
without the `tokenlogin` field. -/
def loginCount (sent : List Request) : Nat := (sent.filter fun r => r.tokenlogin.isNone).length

/-! ## Auxiliary notions used in the statements -/

/-- How `doRequest` settles an answer outside the token-renewal branch: the
returned value and the effects after it. -/
def settle (L : Stdlib) (config : Config) (r : PostResult) (w1 : World) :
    Outcome revogiResponseBody × World :=
  match r with
  | .err msg => (.error (.postFailed msg), w1)
  | .resp statusCode body =>
    if statusCode ≠ 200 then (.error (.httpStatus statusCode), w1)
    else
      match L.decodeBody body with
      | none => (.error .readBody, w1)
      | some respBody =>
        if respBody.Code ≠ 200 then
          (.error (.jsonCode respBody.Code respBody.Data),
            if respBody.Code = 500 then w1.sleep (cooldownDuration config) else w1)
        else (.ok respBody, w1)

/-- The envelope carried by an answer: HTTP status 200 and a decodable body. -/
def envelope (L : Stdlib) (r : PostResult) : Option revogiResponseBody :=
  match r with
  | .err _ => none
  | .resp statusCode body => if statusCode = 200 then L.decodeBody body else none

/-- The login data carried by an answer to a login request, when that login
succeeds: an envelope of code 200 whose data decodes as `loginData`. -/
def loginAnswer (L : Stdlib) (r : PostResult) : Option loginData :=
  match envelope L r with
  | none => none
  | some respBody => if respBody.Code = 200 then L.unmarshalLoginData respBody.Data else none

/-- The request that `Login` sends from receiver `c`. -/
def loginRequest (L : Stdlib) (c : client) : Request :=
  mkRequest c 101 (L.marshal [("username", .str c.config.Username),
                              ("password", .str c.config.Password)]) false

/-- Token returned by the most recent successful login in a trace (most recent
request first); the empty string when no login has succeeded. -/
def loginToken (L : Stdlib) (h : HttpClient) : List Request → String
  | [] => ""
  | req :: hist =>
    match req.tokenlogin with
    | some _ => loginToken L h hist
    | none =>
      match loginAnswer L (h hist req) with
      | some d => d.Token
      | none => loginToken L h hist

/-- Every request of the trace that carries a `tokenlogin` field carries the
token returned by the most recent successful login before it. -/
def SessionTokens (L : Stdlib) (h : HttpClient) : List Request → Prop
  | [] => True
  | req :: hist =>
    (∀ t, req.tokenlogin = some t → t = loginToken L h hist) ∧ SessionTokens L h hist


/-! ## Fixtures of `revogi_test.go` -/

/-- Type `mockHttpClient` of the tests (the fields that `PostForm` reads). -/
structure mockHttpClient where
  err : Option String
  body : String
  statusCode : Int
deriving DecidableEq, Repr

/-- Method `mockHttpClient.PostForm`: the same answer to every request. -/
def mockHttpClient.PostForm (m : mockHttpClient) : HttpClient := fun _ _ =>
  match m.err with
  | some msg => .err msg
  | none => .resp m.statusCode m.body

/-- A server that accepts the session token `T1` only and hands it out at
every login. -/
def sessionServer : HttpClient := fun _ req =>
  match req.tokenlogin with
  | none =>
    .resp 200 ("\x7b\"code\":200,\"data\":\x7b\"domain\":\"lon.revogi.net\",\"token\":\"T1\"\x7d," ++
               "\"response\":101,\"sn\":\"\"\x7d")
  | some t =>
    if t = "T1" then
      .resp 200 "\x7b\"code\":200,\"data\":\x7b\"dev\":[],\"url\":\"\"\x7d,\"response\":500,\"sn\":\"\"\x7d"
    else .resp 200 "\x7b\"code\":401,\"data\":\"please log in\",\"response\":500,\"sn\":\"\"\x7d"

/-- A server that answers every login with an empty successful envelope and
every command that carries a token with code 401. -/
def rejectingServer : HttpClient := fun _ req =>
  match req.tokenlogin with
  | none => .resp 200 "\x7b\"code\":200,\"data\":\x7b\x7d,\"response\":101,\"sn\":\"\"\x7d"
  | some _ => .resp 200 "\x7b\"code\":401,\"data\":\"please log in\",\"response\":500,\"sn\":\"\"\x7d"

/-- Rendering of one payload value for strings that need no escaping. -/
def renderPayload : Payload → String
  | .str s => "\"" ++ s ++ "\""
  | .int i => toString i
  | .strs l => "[" ++ ",".intercalate (l.map fun s => "\"" ++ s ++ "\"") ++ "]"

/-- Order of map keys in the output of `json.Marshal`: lexicographic. -/
def keyBefore : List Char → List Char → Bool
  | [], [] => false
  | [], _ :: _ => true
  | _ :: _, [] => false
  | a :: as, b :: bs =>
    if a.toNat < b.toNat then true
    else if b.toNat < a.toNat then false
    else keyBefore as bs

/-- Insert a map entry at its place in key order. -/
def insertEntry (e : String × Payload) : List (String × Payload) → List (String × Payload)
  | [] => [e]
  | x :: xs => if keyBefore e.1.data x.1.data then e :: x :: xs else x :: insertEntry e xs

/-- The behaviour of the Go standard library on the texts that occur in
`revogi_test.go` and in the instances below: `json.Marshal` writes the keys of
a map in sorted order; fields that a JSON object omits keep their zero value.
Texts outside the tables are answered like undecodable input; the fixture is
used for concrete instances only, every general statement quantifies over an
arbitrary `Stdlib`. -/
def fixtureLib : Stdlib where
  marshal := fun m =>
    "\x7b" ++ ",".intercalate ((m.foldr insertEntry []).map fun e =>
      "\"" ++ e.1 ++ "\":" ++ renderPayload e.2) ++ "\x7d"
  decodeBody := fun body =>
    if body = "\x7b\"code\":200,\"data\":\x7b\x7d,\"response\":101,\"sn\":\"\"\x7d" then
      some { Code := 200, Data := "\x7b\x7d", Response := 101, Sn := "" }
    else if body = "\x7b\"code\":200,\"data\":\x7b\"domain\":\"lon.revogi.net\",\"token\":\"T1\"\x7d," ++
                   "\"response\":101,\"sn\":\"\"\x7d" then
      some { Code := 200, Data := "\x7b\"domain\":\"lon.revogi.net\",\"token\":\"T1\"\x7d",
             Response := 101, Sn := "" }
    else if body = "\x7b\"code\":401,\"data\":\"please log in\",\"response\":500,\"sn\":\"\"\x7d" then
      some { Code := 401, Data := "\"please log in\"", Response := 500, Sn := "" }
    else if body = "\x7b\"code\":500,\"data\":\x7b\x7d,\"response\":101,\"sn\":\"\"\x7d" then
      some { Code := 500, Data := "\x7b\x7d", Response := 101, Sn := "" }
    else if body = "\x7b\"code\":200,\"data\":\x7b\"dev\":[],\"url\":\"\"\x7d,\"response\":500,\"sn\":\"\"\x7d" then
      some { Code := 200, Data := "\x7b\"dev\":[],\"url\":\"\"\x7d", Response := 500, Sn := "" }
    else if body = "\x7b\"code\":200,\"data\":[],\"response\":511,\"sn\":\"\"\x7d" then
      some { Code := 200, Data := "[]", Response := 511, Sn := "" }
    else if body = "\x7b\"code\":200,\"data\":\"send2:SWW1234\",\"response\":200,\"sn\":\"SWW1234\"\x7d" then
      some { Code := 200, Data := "\"send2:SWW1234\"", Response := 200, Sn := "SWW1234" }
    else if body = "\x7b\"code\":200,\"data\":\"send2:SWW1234:x\",\"response\":200,\"sn\":\"SWW1234\"\x7d" then
      some { Code := 200, Data := "\"send2:SWW1234:x\"", Response := 200, Sn := "SWW1234" }
    else if body = "\x7b\"code\":200,\"data\":\"send2\",\"response\":200,\"sn\":\"SWW1234\"\x7d" then
      some { Code := 200, Data := "\"send2\"", Response := 200, Sn := "SWW1234" }
    else none
  unmarshalLoginData := fun data =>
    if data = "\x7b\x7d" then
      some { UserId := "", Domain := "", Name := "", RegId := "", Avatar := "", Message := "",
             Url := "", Token := "" }
    else if data = "\x7b\"domain\":\"lon.revogi.net\",\"token\":\"T1\"\x7d" then
      some { UserId := "", Domain := "lon.revogi.net", Name := "", RegId := "", Avatar := "",
             Message := "", Url := "", Token := "T1" }
    else none
  unmarshalDevicesData := fun data =>
    if data = "\x7b\"dev\":[],\"url\":\"\"\x7d" then some { Dev := [], Url := "" } else none
  unmarshalDeviceStats := fun data => if data = "[]" then some [] else none
  unquote := fun data =>
    if data = "\"send2:SWW1234\"" then some "send2:SWW1234"
    else if data = "\"send2:SWW1234:x\"" then some "send2:SWW1234:x"
    else if data = "\"send2\"" then some "send2"
    else if data = "\"please log in\"" then some "please log in"
    else none

/-- The configuration used by the tests, with `MaxRetries` and `Cooldown` to
choose; `Logger` is nil. -/
def testConfig (maxRetries cooldown : Int) : Config :=
  { Username := "user", Password := "password", Interval := 0, MaxRetries := maxRetries,
    Cooldown := cooldown, Devices := [], Logger := false }

/-- The mock of `TestClient_MaxRetriesReached`: every answer is an envelope of
code 401. -/
def mock401 : mockHttpClient :=
  { err := none, statusCode := 200,
    body := "\x7b\"code\":401,\"data\":\"please log in\",\"response\":500,\"sn\":\"\"\x7d" }

/-- A device with the given serial number. -/
def deviceSn (sn : String) : Device := { Device.zero with Sn := sn }


/-- A client whose counter stands at 2 of 3 after two failed renewals. -/
def staleClient : client := { NewClient (testConfig 3 0) with retries := 2 }

/-- The login data handed out by `sessionServer`. -/
def sessionLogin : loginData :=
  { UserId := "", Domain := "lon.revogi.net", Name := "", RegId := "", Avatar := "",
    Message := "", Url := "", Token := "T1" }

/-- The mock of `TestClient_Power`, with the text of the data to choose. -/
def mockPower (data : String) : mockHttpClient :=
  { err := none, statusCode := 200,
    body := "\x7b\"code\":200,\"data\":\"" ++ data ++ "\",\"response\":200,\"sn\":\"SWW1234\"\x7d" }

/-- The payload that `Power` marshals. -/
def powerPayload (L : Stdlib) (device : Device) (port : Int) (state : Bool) : String :=
  L.marshal [("protocol", .str protocol), ("sn", .str device.Sn), ("port", .int port),
             ("state", .int (if state then 1 else 0))]

/-- A transport that answers every request, the command and the login alike,
with an envelope of code 401. -/
def Always401 (L : Stdlib) (h : HttpClient) : Prop :=
  ∀ hist req, ∃ rb, envelope L (h hist req) = some rb ∧ rb.Code = 401

/-- The test configuration with a logger supplied by the caller. -/
def loggingConfig (maxRetries : Int) : Config :=
  { testConfig maxRetries 0 with Logger := true }

/-! ## Unfolding `doRequest` and `Login` -/

theorem doRequest_zero (L : Stdlib) (h : HttpClient) (cmd : Int) (postData : String)
    (tokenLogin : Bool) (c : client) (w : World) :
    doRequest L h 0 cmd postData tokenLogin c w = (.outOfFuel, c, w) := rfl

/-- Outside the renewal branch one activation of `doRequest` sends one request
and settles its answer; the receiver is untouched. -/
theorem doRequest_settled (L : Stdlib) (h : HttpClient) (fuel : Nat) (cmd : Int)
    (postData : String) (tokenLogin : Bool) (c : client) (w : World)
    (hne : ¬ (tokenLogin = true ∧
      ∃ rb, envelope L (h w.sent (mkRequest c cmd postData tokenLogin)) = some rb ∧ rb.Code = 401)) :
    doRequest L h (fuel + 1) cmd postData tokenLogin c w =
      ((settle L c.config (h w.sent (mkRequest c cmd postData tokenLogin))
          (w.send (mkRequest c cmd postData tokenLogin))).1, c,
       (settle L c.config (h w.sent (mkRequest c cmd postData tokenLogin))
          (w.send (mkRequest c cmd postData tokenLogin))).2) := by
  unfold doRequest settle
  simp only []
  cases hr : h w.sent (mkRequest c cmd postData tokenLogin) with
  | err msg => simp
  | resp statusCode body =>
    simp only [hr, envelope] at hne
    by_cases hs : statusCode = 200
    · simp only [hs, if_true] at hne
      simp only [hs, ne_eq, not_true_eq_false, if_false]
      cases hd : L.decodeBody body with
      | none => simp
      | some rb =>
        simp only [hd, Option.some.injEq, exists_eq_left'] at hne
        have h1 : ¬ (tokenLogin = true ∧ rb.Code = 401) := hne
        simp only [h1, if_false]
        by_cases hc : rb.Code = 200 <;> simp [hc]
    · simp [hs]

/-- In the renewal branch: a session-required command answered with an
envelope of code 401. -/
theorem doRequest_expired (L : Stdlib) (h : HttpClient) (fuel : Nat) (cmd : Int)
    (postData : String) (c : client) (w : World) (rb : revogiResponseBody)
    (henv : envelope L (h w.sent (mkRequest c cmd postData true)) = some rb)
    (hcode : rb.Code = 401) :
    doRequest L h (fuel + 1) cmd postData true c w =
      if c.retries ≥ c.config.MaxRetries then
        (.error (.maxRenewals c.config.MaxRetries), c, w.send (mkRequest c cmd postData true))
      else if c.logger = false then
        (.fault .nilPointer, c, w.send (mkRequest c cmd postData true))
      else
        match Login L h fuel c
            ((w.send (mkRequest c cmd postData true)).print "token expired. attempting to renew") with
        | (.error e, c3, w3) =>
          (.error (.renewFailed e), { c3 with retries := c3.retries + 1 }, w3)
        | (.fault p, c3, w3) => (.fault p, c3, w3)
        | (.outOfFuel, c3, w3) => (.outOfFuel, c3, w3)
        | (.ok _, c3, w3) => doRequest L h fuel cmd postData true { c3 with retries := 0 } w3 := by
  conv_lhs => unfold doRequest
  simp only []
  cases hr : h w.sent (mkRequest c cmd postData true) with
  | err msg => simp [hr, envelope] at henv
  | resp statusCode body =>
    simp only [hr, envelope] at henv
    by_cases hs : statusCode = 200
    · simp only [hs, if_true] at henv
      simp only [hs, ne_eq, not_true_eq_false, if_false, henv, hcode, and_self, if_true, Login]
    · simp [hs] at henv


theorem Login_zero (L : Stdlib) (h : HttpClient) (c : client) (w : World) :
    Login L h 0 c w = (.outOfFuel, c, w) := rfl

theorem settle_sent (L : Stdlib) (config : Config) (r : PostResult) (w1 : World) :
    (settle L config r w1).2.sent = w1.sent ∧ (settle L config r w1).2.printed = w1.printed := by
  unfold settle
  split
  · simp
  · split
    · simp
    · split
      · simp
      · split
        · split <;> simp [World.sleep]
        · simp

/-- `Login` in terms of the answer to its one request. -/
theorem Login_succ (L : Stdlib) (h : HttpClient) (fuel : Nat) (c : client) (w : World) :
    Login L h (fuel + 1) c w =
      match settle L c.config (h w.sent (loginRequest L c)) (w.send (loginRequest L c)) with
      | (.ok body, w1) =>
        match L.unmarshalLoginData body.Data with
        | none => (.error .unmarshal, c, w1)
        | some d => (.ok (), { c with domain := d.Domain, token := d.Token }, w1)
      | (.error e, w1) => (.error (.loginRequest e), c, w1)
      | (.fault p, w1) => (.fault p, c, w1)
      | (.outOfFuel, w1) => (.outOfFuel, c, w1) := by
  unfold Login loginWith
  simp only []
  rw [doRequest_settled L h fuel 101 _ false c w (by simp)]
  unfold loginRequest
  generalize settle L c.config _ _ = s
  obtain ⟨o, w1⟩ := s
  cases o <;> simp

/-- A login whose answer carries login data succeeds and stores both fields. -/
theorem Login_ok (L : Stdlib) (h : HttpClient) (fuel : Nat) (c : client) (w : World)
    (d : loginData) (hans : loginAnswer L (h w.sent (loginRequest L c)) = some d) :
    Login L h (fuel + 1) c w =
      (.ok (), { c with domain := d.Domain, token := d.Token }, w.send (loginRequest L c)) := by
  rw [Login_succ]
  unfold loginAnswer envelope at hans
  unfold settle
  cases hr : h w.sent (loginRequest L c) with
  | err msg => simp [hr] at hans
  | resp statusCode body =>
    simp only [hr] at hans
    by_cases hs : statusCode = 200
    · simp only [hs, if_true] at hans
      cases hd : L.decodeBody body with
      | none => simp [hd] at hans
      | some rb =>
        simp only [hd] at hans
        by_cases hc : rb.Code = 200
        · simp only [hc, if_true] at hans
          simp [hs, hd, hc, hans]
        · simp [hc] at hans
    · simp [hs] at hans

/-- A login whose answer carries no login data fails and leaves the receiver
as it was. -/
theorem Login_fail (L : Stdlib) (h : HttpClient) (fuel : Nat) (c : client) (w : World)
    (hans : loginAnswer L (h w.sent (loginRequest L c)) = none) :
    ∃ e, Login L h (fuel + 1) c w =
      (.error e, c,
        (settle L c.config (h w.sent (loginRequest L c)) (w.send (loginRequest L c))).2) := by
  rw [Login_succ]
  unfold loginAnswer envelope at hans
  unfold settle
  cases hr : h w.sent (loginRequest L c) with
  | err msg => simp
  | resp statusCode body =>
    simp only [hr] at hans
    by_cases hs : statusCode = 200
    · simp only [hs, if_true] at hans
      cases hd : L.decodeBody body with
      | none => simp [hs, hd]
      | some rb =>
        simp only [hd] at hans
        by_cases hc : rb.Code = 200
        · simp only [hc, if_true] at hans
          simp [hs, hd, hc, hans]
        · simp [hs, hd, hc]
    · simp [hs]

/-- Whatever the answer, `Login` with fuel returns a value or an error, keeps
`config`, `logger` and `retries`, and sends exactly its one request. -/
theorem Login_frame (L : Stdlib) (h : HttpClient) (fuel : Nat) (c : client) (w : World) :
    (Login L h fuel c w).2.1.config = c.config ∧
    (Login L h fuel c w).2.1.logger = c.logger ∧
    (Login L h fuel c w).2.1.retries = c.retries := by
  cases fuel with
  | zero => simp [Login_zero]
  | succ n =>
    cases hans : loginAnswer L (h w.sent (loginRequest L c)) with
    | none =>
      obtain ⟨e, he⟩ := Login_fail L h n c w hans
      simp [he]
    | some d => simp [Login_ok L h n c w d hans]


/-! ## Invariance principle -/

theorem settle_world (L : Stdlib) (config : Config) (r : PostResult) (w1 : World) :
    (settle L config r w1).2 = w1 ∨
    (settle L config r w1).2 = w1.sleep (cooldownDuration config) := by
  unfold settle
  split
  · simp
  · split
    · simp
    · split
      · simp
      · split
        · split <;> simp
        · simp

/-- A property of receiver and effects that every elementary step of the
dispatcher preserves is preserved by `doRequest` for session-required
commands, whatever the fuel. -/
theorem doRequest_preserves (L : Stdlib) (h : HttpClient) (P : client → World → Prop)
    (hsend : ∀ c w cmd postData, P c w → P c (w.send (mkRequest c cmd postData true)))
    (hsleep : ∀ c w d, P c w → P c (w.sleep d))
    (hprint : ∀ c w line, P c w → P c (w.print line))
    (hlogin : ∀ fuel c w, P c w → P (Login L h fuel c w).2.1 (Login L h fuel c w).2.2)
    (hinc : ∀ c w, P c w → c.retries < c.config.MaxRetries →
      P { c with retries := c.retries + 1 } w)
    (hreset : ∀ c w, P c w → c.retries < c.config.MaxRetries → P { c with retries := 0 } w) :
    ∀ (fuel : Nat) (cmd : Int) (postData : String) (c : client) (w : World), P c w →
      P (doRequest L h fuel cmd postData true c w).2.1
        (doRequest L h fuel cmd postData true c w).2.2 := by
  intro fuel
  induction fuel with
  | zero => intro cmd postData c w hP; simpa [doRequest_zero] using hP
  | succ n ih =>
    intro cmd postData c w hP
    have h1 : P c (w.send (mkRequest c cmd postData true)) := hsend c w cmd postData hP
    by_cases hexp : ∃ rb, envelope L (h w.sent (mkRequest c cmd postData true)) = some rb ∧
        rb.Code = 401
    · obtain ⟨rb, henv, hcode⟩ := hexp
      rw [doRequest_expired L h n cmd postData c w rb henv hcode]
      by_cases hmax : c.retries ≥ c.config.MaxRetries
      · simpa [hmax] using h1
      · by_cases hlog : c.logger = false
        · simpa [hmax, hlog] using h1
        · simp only [hmax, hlog, if_false]
          have h2 := hlogin n c _ (hprint c _ "token expired. attempting to renew" h1)
          have hf := Login_frame L h n c
            ((w.send (mkRequest c cmd postData true)).print "token expired. attempting to renew")
          revert h2 hf
          generalize Login L h n c _ = s
          obtain ⟨o, c3, w3⟩ := s
          intro h2 hf
          simp only at h2 hf
          cases o with
          | ok a =>
            apply ih cmd postData _ w3
            apply hreset c3 w3 h2
            rw [hf.2.2, hf.1]
            exact lt_of_not_ge hmax
          | error e =>
            apply hinc c3 w3 h2
            rw [hf.2.2, hf.1]
            exact lt_of_not_ge hmax
          | fault p => exact h2
          | outOfFuel => exact h2
    · rw [doRequest_settled L h n cmd postData true c w (fun hh => hexp hh.2)]
      simp only
      rcases settle_world L c.config (h w.sent (mkRequest c cmd postData true))
        (w.send (mkRequest c cmd postData true)) with hw | hw
      · rw [hw]; exact h1
      · rw [hw]; exact hsleep c _ _ h1

theorem GetDevice_state (L : Stdlib) (h : HttpClient) (fuel : Nat) (dev : Device)
    (c : client) (w : World) :
    (GetDevice L h fuel dev c w).2 =
      (doRequest L h fuel 500 (L.marshal [("protocol", .str protocol), ("dev", .str dev.Sn)])
        true c w).2 := by
  unfold GetDevice
  simp only []
  generalize doRequest L h fuel 500 _ true c w = s
  obtain ⟨o, c1, w1⟩ := s
  cases o with
  | ok body =>
    simp only
    cases L.unmarshalDevicesData body.Data with
    | none => rfl
    | some d => cases hd : d.Dev <;> simp [hd]
  | error e => rfl
  | fault p => rfl
  | outOfFuel => rfl

theorem GetDevices_state (L : Stdlib) (h : HttpClient) (fuel : Nat) (c : client) (w : World) :
    (GetDevices L h fuel c w).2 =
      (doRequest L h fuel 500 (L.marshal [("protocol", .str protocol), ("dev", .str "all")])
        true c w).2 := by
  unfold GetDevices
  simp only []
  generalize doRequest L h fuel 500 _ true c w = s
  obtain ⟨o, c1, w1⟩ := s
  cases o with
  | ok body =>
    simp only
    cases L.unmarshalDevicesData body.Data <;> rfl
  | error e => rfl
  | fault p => rfl
  | outOfFuel => rfl

theorem GetDeviceStats_state (L : Stdlib) (h : HttpClient) (fuel : Nat) (device : Device)
    (c : client) (w : World) :
    (GetDeviceStats L h fuel device c w).2 =
      (doRequest L h fuel 511
        (L.marshal [("protocol", .str protocol), ("sn", .strs [device.Sn])]) true c w).2 := by
  unfold GetDeviceStats
  simp only []
  generalize doRequest L h fuel 511 _ true c w = s
  obtain ⟨o, c1, w1⟩ := s
  cases o with
  | ok body =>
    simp only
    cases L.unmarshalDeviceStats body.Data with
    | none => rfl
    | some data => cases data <;> rfl
  | error e => rfl
  | fault p => rfl
  | outOfFuel => rfl

theorem Power_state (L : Stdlib) (h : HttpClient) (fuel : Nat) (device : Device) (port : Int)
    (state : Bool) (c : client) (w : World) :
    (Power L h fuel device port state c w).2 =
      (doRequest L h fuel 200
        (L.marshal [("protocol", .str protocol), ("sn", .str device.Sn), ("port", .int port),
                    ("state", .int (if state then 1 else 0))]) true c w).2 := by
  unfold Power
  simp only []
  generalize doRequest L h fuel 200 _ true c w = s
  obtain ⟨o, c1, w1⟩ := s
  cases o with
  | ok body =>
    simp only
    cases L.unquote body.Data with
    | none => rfl
    | some result =>
      simp only
      cases hp : powerCheck (Split result ':') device.Sn with
      | none => rfl
      | some b => cases b <;> rfl
  | error e => rfl
  | fault p => rfl
  | outOfFuel => rfl

/-- The invariance principle for one operation of the interface. -/
theorem runOp_preserves (L : Stdlib) (h : HttpClient) (P : client → World → Prop)
    (hsend : ∀ c w cmd postData, P c w → P c (w.send (mkRequest c cmd postData true)))
    (hsleep : ∀ c w d, P c w → P c (w.sleep d))
    (hprint : ∀ c w line, P c w → P c (w.print line))
    (hlogin : ∀ fuel c w, P c w → P (Login L h fuel c w).2.1 (Login L h fuel c w).2.2)
    (hinc : ∀ c w, P c w → c.retries < c.config.MaxRetries →
      P { c with retries := c.retries + 1 } w)
    (hreset : ∀ c w, P c w → c.retries < c.config.MaxRetries → P { c with retries := 0 } w)
    (fuel : Nat) (op : Op) (s : client × World) (hP : P s.1 s.2) :
    P (runOp L h fuel op s).1 (runOp L h fuel op s).2 := by
  have hd := doRequest_preserves L h P hsend hsleep hprint hlogin hinc hreset fuel
  cases op with
  | login => exact hlogin fuel s.1 s.2 hP
  | getDevice dev =>
    simp only [runOp, GetDevice_state]
    exact hd _ _ s.1 s.2 hP
  | getDevices =>
    simp only [runOp, GetDevices_state]
    exact hd _ _ s.1 s.2 hP
  | getDeviceStats device =>
    simp only [runOp, GetDeviceStats_state]
    exact hd _ _ s.1 s.2 hP
  | power device port state =>
    simp only [runOp, Power_state]
    exact hd _ _ s.1 s.2 hP

/-- The invariance principle for a sequence of operations. -/
theorem runOps_preserves (L : Stdlib) (h : HttpClient) (P : client → World → Prop)
    (hsend : ∀ c w cmd postData, P c w → P c (w.send (mkRequest c cmd postData true)))
    (hsleep : ∀ c w d, P c w → P c (w.sleep d))
    (hprint : ∀ c w line, P c w → P c (w.print line))
    (hlogin : ∀ fuel c w, P c w → P (Login L h fuel c w).2.1 (Login L h fuel c w).2.2)
    (hinc : ∀ c w, P c w → c.retries < c.config.MaxRetries →
      P { c with retries := c.retries + 1 } w)
    (hreset : ∀ c w, P c w → c.retries < c.config.MaxRetries → P { c with retries := 0 } w) :
    ∀ (ops : List (Nat × Op)) (s : client × World), P s.1 s.2 →
      P (runOps L h ops s).1 (runOps L h ops s).2 := by
  intro ops
  induction ops with
  | nil => intro s hP; exact hP
  | cons x rest ih =>
    intro s hP
    obtain ⟨fuel, op⟩ := x
    simp only [runOps]
    exact ih _ (runOp_preserves L h P hsend hsleep hprint hlogin hinc hreset fuel op s hP)


/-! ## Login -/

theorem loginAnswer_eq_none_iff (L : Stdlib) (r : PostResult) :
    loginAnswer L r = none ↔
      ((∃ msg, r = .err msg) ∨ (∃ s b, r = .resp s b ∧ s ≠ 200) ∨
       (∃ b, r = .resp 200 b ∧ L.decodeBody b = none) ∨
       (∃ b rb, r = .resp 200 b ∧ L.decodeBody b = some rb ∧ rb.Code ≠ 200) ∨
       (∃ b rb, r = .resp 200 b ∧ L.decodeBody b = some rb ∧
          L.unmarshalLoginData rb.Data = none)) := by
  unfold loginAnswer envelope
  cases r with
  | err msg => simp
  | resp s b =>
    by_cases hs : s = 200
    · subst hs
      cases hd : L.decodeBody b with
      | none => simp [hd]
      | some rb =>
        by_cases hc : rb.Code = 200
        · simp [hd, hc]
        · simp [hd, hc]
    · simp [hs]

/-- C9: `Login` is atomic on the session: with fuel for its one request it
either returns no error and stores the domain and the token decoded from the
answer, or returns an error and leaves the receiver as it was; in both cases
it sends its one request and nothing else (a 401 answer starts no nested
login). It returns an error whenever the transport fails, the HTTP status is
not 200, the body is no envelope, the envelope code is not 200, or the data
does not decode as login data. -/
theorem Login_atomic (L : Stdlib) (h : HttpClient) (fuel : Nat) (c : client) (w : World) :
    ((∃ d, loginAnswer L (h w.sent (loginRequest L c)) = some d ∧
        Login L h (fuel + 1) c w =
          (.ok (), { c with domain := d.Domain, token := d.Token },
            w.send (loginRequest L c))) ∨
      (∃ e w1, Login L h (fuel + 1) c w = (.error e, c, w1) ∧
        w1.sent = loginRequest L c :: w.sent)) ∧
    (((∃ msg, h w.sent (loginRequest L c) = .err msg) ∨
      (∃ s b, h w.sent (loginRequest L c) = .resp s b ∧ s ≠ 200) ∨
      (∃ b, h w.sent (loginRequest L c) = .resp 200 b ∧ L.decodeBody b = none) ∨
      (∃ b rb, h w.sent (loginRequest L c) = .resp 200 b ∧ L.decodeBody b = some rb ∧
        rb.Code ≠ 200) ∨
      (∃ b rb, h w.sent (loginRequest L c) = .resp 200 b ∧ L.decodeBody b = some rb ∧
        L.unmarshalLoginData rb.Data = none)) →
      ∃ e w1, Login L h (fuel + 1) c w = (.error e, c, w1) ∧
        w1.sent = loginRequest L c :: w.sent) := by
  have hfail : loginAnswer L (h w.sent (loginRequest L c)) = none →
      ∃ e w1, Login L h (fuel + 1) c w = (.error e, c, w1) ∧
        w1.sent = loginRequest L c :: w.sent := by
    intro hans
    obtain ⟨e, he⟩ := Login_fail L h fuel c w hans
    exact ⟨e, _, he, by rw [(settle_sent L _ _ _).1]; rfl⟩
  constructor
  · cases hans : loginAnswer L (h w.sent (loginRequest L c)) with
    | none => exact Or.inr (hfail hans)
    | some d => exact Or.inl ⟨d, rfl, Login_ok L h fuel c w d hans⟩
  · intro hcond
    exact hfail ((loginAnswer_eq_none_iff L _).2 hcond)

/-- C8: a login answered with HTTP 200 and an envelope of code 200 whose data
decodes to login data with empty domain and token (what `encoding/json`
yields for an object that omits both) returns no error and leaves the session
with `domain = ""` and `token = ""`, whatever it held before. -/
theorem Login_empty_session (L : Stdlib) (h : HttpClient) (fuel : Nat) (c : client) (w : World)
    (body : String) (rb : revogiResponseBody) (d : loginData)
    (hresp : h w.sent (loginRequest L c) = .resp 200 body)
    (hdec : L.decodeBody body = some rb) (hcode : rb.Code = 200)
    (hdata : L.unmarshalLoginData rb.Data = some d)
    (hdom : d.Domain = "") (htok : d.Token = "") :
    (Login L h (fuel + 1) c w).1 = .ok () ∧
    (Login L h (fuel + 1) c w).2.1.domain = "" ∧
    (Login L h (fuel + 1) c w).2.1.token = "" := by
  have hans : loginAnswer L (h w.sent (loginRequest L c)) = some d := by
    simp [loginAnswer, envelope, hresp, hdec, hcode, hdata]
  rw [Login_ok L h fuel c w d hans]
  simp [hdom, htok]

/-- The mock of `TestRevogi_LoginOk`. -/
theorem Login_empty_session_witness :
    (mockHttpClient.PostForm
        { err := none, statusCode := 200,
          body := "\x7b\"code\":200,\"data\":\x7b\x7d,\"response\":101,\"sn\":\"\"\x7d" }
        World.empty.sent
        (loginRequest fixtureLib
          { NewClient (testConfig 0 0) with domain := "lon.revogi.net", token := "T1" }) =
      .resp 200 "\x7b\"code\":200,\"data\":\x7b\x7d,\"response\":101,\"sn\":\"\"\x7d") ∧
    (Login fixtureLib
        (mockHttpClient.PostForm
          { err := none, statusCode := 200,
            body := "\x7b\"code\":200,\"data\":\x7b\x7d,\"response\":101,\"sn\":\"\"\x7d" })
        1 { NewClient (testConfig 0 0) with domain := "lon.revogi.net", token := "T1" }
        World.empty).1 = .ok () ∧
    (Login fixtureLib
        (mockHttpClient.PostForm
          { err := none, statusCode := 200,
            body := "\x7b\"code\":200,\"data\":\x7b\x7d,\"response\":101,\"sn\":\"\"\x7d" })
        1 { NewClient (testConfig 0 0) with domain := "lon.revogi.net", token := "T1" }
        World.empty).2.1.domain = "" ∧
    (Login fixtureLib
        (mockHttpClient.PostForm
          { err := none, statusCode := 200,
            body := "\x7b\"code\":200,\"data\":\x7b\x7d,\"response\":101,\"sn\":\"\"\x7d" })
        1 { NewClient (testConfig 0 0) with domain := "lon.revogi.net", token := "T1" }
        World.empty).2.1.token = "" :=
  ⟨rfl,
    Login_empty_session fixtureLib _ 0
      { NewClient (testConfig 0 0) with domain := "lon.revogi.net", token := "T1" } World.empty
      "\x7b\"code\":200,\"data\":\x7b\x7d,\"response\":101,\"sn\":\"\"\x7d"
      { Code := 200, Data := "\x7b\x7d", Response := 101, Sn := "" }
      { UserId := "", Domain := "", Name := "", RegId := "", Avatar := "", Message := "",
        Url := "", Token := "" }
      rfl (by decide) rfl (by decide) rfl rfl⟩


/-! ## The retry counter -/

/-- `doRequest` keeps `config` and `logger`. -/
theorem doRequest_config (L : Stdlib) (h : HttpClient) (fuel : Nat) (cmd : Int)
    (postData : String) (c : client) (w : World) :
    (doRequest L h fuel cmd postData true c w).2.1.config = c.config := by
  apply doRequest_preserves L h (fun c1 _ => c1.config = c.config)
  · intro c1 w1 _ _ hP; exact hP
  · intro c1 w1 _ hP; exact hP
  · intro c1 w1 _ hP; exact hP
  · intro n c1 w1 hP; rw [(Login_frame L h n c1 w1).1]; exact hP
  · intro c1 w1 hP _; exact hP
  · intro c1 w1 hP _; exact hP
  · rfl

/-- A receiver whose budget is used up is never modified by `doRequest`. -/
theorem doRequest_exhausted_client (L : Stdlib) (h : HttpClient) (fuel : Nat) (cmd : Int)
    (postData : String) (tokenLogin : Bool) (c : client) (w : World)
    (hmax : c.retries ≥ c.config.MaxRetries) :
    (doRequest L h fuel cmd postData tokenLogin c w).2.1 = c := by
  cases fuel with
  | zero => rfl
  | succ n =>
    by_cases hexp : tokenLogin = true ∧
        ∃ rb, envelope L (h w.sent (mkRequest c cmd postData tokenLogin)) = some rb ∧ rb.Code = 401
    · obtain ⟨htl, rb, henv, hcode⟩ := hexp
      subst htl
      rw [doRequest_expired L h n cmd postData c w rb henv hcode]
      simp [hmax]
    · rw [doRequest_settled L h n cmd postData tokenLogin c w hexp]

/-- The counter changes only in the renewal branch and only below the budget. -/
theorem doRequest_retries_changed (L : Stdlib) (h : HttpClient) (fuel : Nat) (cmd : Int)
    (postData : String) (tokenLogin : Bool) (c : client) (w : World)
    (hchg : (doRequest L h fuel cmd postData tokenLogin c w).2.1.retries ≠ c.retries) :
    tokenLogin = true ∧ c.retries < c.config.MaxRetries ∧
      ∃ rb, envelope L (h w.sent (mkRequest c cmd postData tokenLogin)) = some rb ∧
        rb.Code = 401 := by
  cases fuel with
  | zero => exact absurd rfl hchg
  | succ n =>
    by_cases hexp : tokenLogin = true ∧
        ∃ rb, envelope L (h w.sent (mkRequest c cmd postData tokenLogin)) = some rb ∧ rb.Code = 401
    · refine ⟨hexp.1, ?_, hexp.2⟩
      by_contra hlt
      exact hchg (by rw [doRequest_exhausted_client L h _ cmd postData tokenLogin c w
        (le_of_not_lt hlt)])
    · rw [doRequest_settled L h n cmd postData tokenLogin c w hexp] at hchg
      exact absurd rfl hchg

/-- Invariant of the counter along any sequence of operations. -/
theorem runOps_retries_range (L : Stdlib) (h : HttpClient) (ops : List (Nat × Op))
    (s : client × World) (h0 : 0 ≤ s.1.retries) (h1 : s.1.retries ≤ max s.1.config.MaxRetries 0) :
    (runOps L h ops s).1.config = s.1.config ∧ 0 ≤ (runOps L h ops s).1.retries ∧
      (runOps L h ops s).1.retries ≤ max s.1.config.MaxRetries 0 := by
  apply runOps_preserves L h
    (fun c1 _ => c1.config = s.1.config ∧ 0 ≤ c1.retries ∧
      c1.retries ≤ max s.1.config.MaxRetries 0)
  · intro c1 w1 _ _ hP; exact hP
  · intro c1 w1 _ hP; exact hP
  · intro c1 w1 _ hP; exact hP
  · intro n c1 w1 hP
    obtain ⟨hc, _, hr⟩ := Login_frame L h n c1 w1
    rw [hc, hr]; exact hP
  · intro c1 w1 hP hlt
    obtain ⟨hc, hz, _⟩ := hP
    refine ⟨hc, by simp only; omega, ?_⟩
    simp only
    rw [hc] at hlt
    exact le_max_of_le_left (by omega)
  · intro c1 w1 hP _
    exact ⟨hP.1, le_refl _, le_max_right _ _⟩
  · exact ⟨rfl, h0, h1⟩

/-- Once the budget is used up no sequence of operations changes the receiver. -/
theorem runOps_exhausted (L : Stdlib) (h : HttpClient) (ops : List (Nat × Op))
    (s : client × World) (hmax : s.1.retries ≥ s.1.config.MaxRetries) :
    (runOps L h ops s).1.retries = s.1.retries ∧ (runOps L h ops s).1.config = s.1.config := by
  apply runOps_preserves L h
    (fun c1 _ => c1.retries = s.1.retries ∧ c1.config = s.1.config)
  · intro c1 w1 _ _ hP; exact hP
  · intro c1 w1 _ hP; exact hP
  · intro c1 w1 _ hP; exact hP
  · intro n c1 w1 hP
    obtain ⟨hc, _, hr⟩ := Login_frame L h n c1 w1
    rw [hc, hr]; exact hP
  · intro c1 w1 hP hlt
    rw [hP.1, hP.2] at hlt
    exact absurd hmax (not_le_of_lt hlt)
  · intro c1 w1 hP hlt
    rw [hP.1, hP.2] at hlt
    exact absurd hmax (not_le_of_lt hlt)
  · exact ⟨rfl, rfl⟩

/-- C10: in every state reached from `NewClient` by a sequence of operations,
`0 ≤ retries ≤ max(MaxRetries, 0)`; `Login` never changes the counter;
`doRequest` changes it only in the 401 branch of a session-required command
and only when `retries < MaxRetries`; once `retries ≥ MaxRetries` no later
sequence of operations changes it, and every session-required command answered
with code 401 then fails with the budget error after its single transmission,
without a login and without touching the receiver; with `MaxRetries ≤ 0`
(the default 0) this holds from construction. -/
theorem retries_invariant (L : Stdlib) (h : HttpClient) (config : Config)
    (ops : List (Nat × Op)) :
    (0 ≤ (runOps L h ops (NewClient config, World.empty)).1.retries ∧
      (runOps L h ops (NewClient config, World.empty)).1.retries ≤ max config.MaxRetries 0) ∧
    (∀ fuel c w, (Login L h fuel c w).2.1.retries = c.retries) ∧
    (∀ fuel cmd postData tokenLogin c w,
      (doRequest L h fuel cmd postData tokenLogin c w).2.1.retries ≠ c.retries →
        tokenLogin = true ∧ c.retries < c.config.MaxRetries ∧
          ∃ rb, envelope L (h w.sent (mkRequest c cmd postData tokenLogin)) = some rb ∧
            rb.Code = 401) ∧
    (∀ (later : List (Nat × Op)) (c : client) (w : World),
      c.retries ≥ c.config.MaxRetries →
        (runOps L h later (c, w)).1.retries = c.retries ∧
        (runOps L h later (c, w)).1.config = c.config) ∧
    (∀ fuel cmd postData c w rb, c.retries ≥ c.config.MaxRetries →
      envelope L (h w.sent (mkRequest c cmd postData true)) = some rb → rb.Code = 401 →
        doRequest L h (fuel + 1) cmd postData true c w =
          (.error (.maxRenewals c.config.MaxRetries), c,
            w.send (mkRequest c cmd postData true))) ∧
    (config.MaxRetries ≤ 0 →
      (NewClient config).retries ≥ (NewClient config).config.MaxRetries) := by
  refine ⟨?_, ?_, ?_, ?_, ?_, ?_⟩
  · have := runOps_retries_range L h ops (NewClient config, World.empty)
      (by simp [NewClient]) (by simp [NewClient])
    exact this.2
  · intro fuel c w; exact (Login_frame L h fuel c w).2.2
  · intro fuel cmd postData tokenLogin c w hchg
    exact doRequest_retries_changed L h fuel cmd postData tokenLogin c w hchg
  · intro later c w hmax
    exact runOps_exhausted L h later (c, w) hmax
  · intro fuel cmd postData c w rb hmax henv hcode
    rw [doRequest_expired L h fuel cmd postData c w rb henv hcode]
    simp [hmax]
  · intro hle
    simpa [NewClient] using hle


/-! ## Session tokens on the wire -/

theorem loginToken_session (L : Stdlib) (h : HttpClient) (c : client) (cmd : Int)
    (postData : String) (hist : List Request) :
    loginToken L h (mkRequest c cmd postData true :: hist) = loginToken L h hist := by
  simp [loginToken, mkRequest]

theorem loginToken_login (L : Stdlib) (h : HttpClient) (c : client) (hist : List Request) :
    loginToken L h (loginRequest L c :: hist) =
      match loginAnswer L (h hist (loginRequest L c)) with
      | some d => d.Token
      | none => loginToken L h hist := by
  simp [loginToken, loginRequest, mkRequest]

/-- `Login` keeps the stored token equal to the token of the most recent
successful login of the trace. -/
theorem Login_sessionTokens (L : Stdlib) (h : HttpClient) (fuel : Nat) (c : client) (w : World)
    (hP : c.token = loginToken L h w.sent ∧ SessionTokens L h w.sent) :
    (Login L h fuel c w).2.1.token = loginToken L h (Login L h fuel c w).2.2.sent ∧
      SessionTokens L h (Login L h fuel c w).2.2.sent := by
  cases fuel with
  | zero => simpa [Login_zero] using hP
  | succ n =>
    have hnone : (loginRequest L c).tokenlogin = none := by simp [loginRequest, mkRequest]
    cases hans : loginAnswer L (h w.sent (loginRequest L c)) with
    | none =>
      obtain ⟨e, he⟩ := Login_fail L h n c w hans
      rw [he]
      simp only [(settle_sent L _ _ _).1, World.send]
      rw [loginToken_login, hans]
      refine ⟨hP.1, ?_, hP.2⟩
      intro t ht
      rw [hnone] at ht
      cases ht
    | some d =>
      rw [Login_ok L h n c w d hans]
      simp only [World.send]
      rw [loginToken_login, hans]
      refine ⟨rfl, ?_, hP.2⟩
      intro t ht
      rw [hnone] at ht
      cases ht

/-- Along any sequence of operations the stored token is the token of the
most recent successful login, and every request carries that token. -/
theorem runOps_sessionTokens (L : Stdlib) (h : HttpClient) (ops : List (Nat × Op))
    (s : client × World)
    (hP : s.1.token = loginToken L h s.2.sent ∧ SessionTokens L h s.2.sent) :
    (runOps L h ops s).1.token = loginToken L h (runOps L h ops s).2.sent ∧
      SessionTokens L h (runOps L h ops s).2.sent := by
  apply runOps_preserves L h
    (fun c1 w1 => c1.token = loginToken L h w1.sent ∧ SessionTokens L h w1.sent)
  · intro c1 w1 cmd postData hQ
    simp only [World.send]
    rw [loginToken_session]
    refine ⟨hQ.1, ?_, hQ.2⟩
    intro t ht
    simp only [mkRequest, if_true, Option.some.injEq] at ht
    rw [← ht]; exact hQ.1
  · intro c1 w1 _ hQ; exact hQ
  · intro c1 w1 _ hQ; exact hQ
  · intro n c1 w1 hQ; exact Login_sessionTokens L h n c1 w1 hQ
  · intro c1 w1 hQ _; exact hQ
  · intro c1 w1 hQ _; exact hQ
  · exact hP

theorem SessionTokens_split (L : Stdlib) (h : HttpClient) :
    ∀ (sent pre : List Request) (req : Request) (hist : List Request) (t : String),
      SessionTokens L h sent → sent = pre ++ req :: hist → req.tokenlogin = some t →
        t = loginToken L h hist := by
  intro sent pre
  induction pre generalizing sent with
  | nil =>
    intro req hist t hS heq ht
    subst heq
    exact hS.1 t ht
  | cons x pre ih =>
    intro req hist t hS heq ht
    subst heq
    exact ih (pre ++ req :: hist) req hist t hS.2 rfl ht

/-- C5 (amended): in every execution from a freshly constructed client, every
transmitted request that carries the `tokenlogin` field carries the token
returned by the most recent successful login before it, and the empty string
when no login has succeeded before it; the token held by the client is that
same token. -/
theorem session_token_on_wire (L : Stdlib) (h : HttpClient) (config : Config)
    (ops : List (Nat × Op)) :
    (∀ (pre : List Request) (req : Request) (hist : List Request) (t : String),
      (runOps L h ops (NewClient config, World.empty)).2.sent = pre ++ req :: hist →
        req.tokenlogin = some t → t = loginToken L h hist) ∧
    (runOps L h ops (NewClient config, World.empty)).1.token =
      loginToken L h (runOps L h ops (NewClient config, World.empty)).2.sent ∧
    loginToken L h [] = "" := by
  have hS := runOps_sessionTokens L h ops (NewClient config, World.empty)
    (by simp [NewClient, World.empty, loginToken, SessionTokens])
  refine ⟨?_, hS.1, rfl⟩
  intro pre req hist t heq ht
  exact SessionTokens_split L h _ pre req hist t hS.2 heq ht

/-- C5 (as stated) fails: `TestClient_GetDevices` calls `GetDevices` on a fresh
client; the command is transmitted with an empty `tokenlogin` field although
no login was ever sent, and it succeeds. -/
theorem session_command_before_login :
    (GetDevices fixtureLib
        (mockHttpClient.PostForm
          { err := none, statusCode := 200,
            body := "\x7b\"code\":200,\"data\":\x7b\"dev\":[],\"url\":\"\"\x7d,\"response\":500,\"sn\":\"\"\x7d" })
        1 (NewClient (testConfig 0 0)) World.empty).1 = .ok [] ∧
    (GetDevices fixtureLib
        (mockHttpClient.PostForm
          { err := none, statusCode := 200,
            body := "\x7b\"code\":200,\"data\":\x7b\"dev\":[],\"url\":\"\"\x7d,\"response\":500,\"sn\":\"\"\x7d" })
        1 (NewClient (testConfig 0 0)) World.empty).2.2.sent =
      [{ url := "https://server.revogi.net/services/ajax.html", cmd := "500",
         json := "\x7b\"dev\":\"all\",\"protocol\":\"3\"\x7d", tokenlogin := some "" }] := by
  constructor <;> decide


/-! ## Server errors and cooldown -/

theorem wrapInt64_of_range (x : Int) (hlo : -9223372036854775808 ≤ x)
    (hhi : x ≤ 9223372036854775807) : wrapInt64 x = x := by
  unfold wrapInt64
  norm_num
  omega

theorem cooldownDuration_of_range (config : Config) (hlo : -9223372036 ≤ config.Cooldown)
    (hhi : config.Cooldown ≤ 9223372036) :
    cooldownDuration config = 1000000000 * config.Cooldown := by
  unfold cooldownDuration
  apply wrapInt64_of_range <;> omega

/-- C7 (amended): when the decoded envelope has code 500, `doRequest` calls
`time.Sleep` exactly once and returns an error, with its single transmission,
no login and an untouched receiver; the argument of the sleep is
`Cooldown` seconds whenever `Cooldown * 10^9` fits the 64-bit `Duration`
(`-9223372036 ≤ Cooldown ≤ 9223372036`). For every other code that is neither
200 nor a 401 of a session-required command it returns an error without a
sleep and without a retry. -/
theorem doRequest_server_error (L : Stdlib) (h : HttpClient) (fuel : Nat) (cmd : Int)
    (postData : String) (tokenLogin : Bool) (c : client) (w : World) (body : String)
    (rb : revogiResponseBody)
    (hresp : h w.sent (mkRequest c cmd postData tokenLogin) = .resp 200 body)
    (hdec : L.decodeBody body = some rb) :
    (rb.Code = 500 →
      doRequest L h (fuel + 1) cmd postData tokenLogin c w =
        (.error (.jsonCode 500 rb.Data), c,
          (w.send (mkRequest c cmd postData tokenLogin)).sleep (cooldownDuration c.config))) ∧
    (rb.Code = 500 → -9223372036 ≤ c.config.Cooldown → c.config.Cooldown ≤ 9223372036 →
      doRequest L h (fuel + 1) cmd postData tokenLogin c w =
        (.error (.jsonCode 500 rb.Data), c,
          (w.send (mkRequest c cmd postData tokenLogin)).sleep
            (1000000000 * c.config.Cooldown))) ∧
    (rb.Code ≠ 200 → rb.Code ≠ 500 → ¬ (tokenLogin = true ∧ rb.Code = 401) →
      doRequest L h (fuel + 1) cmd postData tokenLogin c w =
        (.error (.jsonCode rb.Code rb.Data), c, w.send (mkRequest c cmd postData tokenLogin))) := by
  have henv : envelope L (h w.sent (mkRequest c cmd postData tokenLogin)) = some rb := by
    simp [envelope, hresp, hdec]
  have h500 : rb.Code = 500 →
      doRequest L h (fuel + 1) cmd postData tokenLogin c w =
        (.error (.jsonCode 500 rb.Data), c,
          (w.send (mkRequest c cmd postData tokenLogin)).sleep (cooldownDuration c.config)) := by
    intro hcode
    rw [doRequest_settled L h fuel cmd postData tokenLogin c w
      (by rw [henv]; rintro ⟨_, rb2, h2, h3⟩; cases h2; omega)]
    simp [settle, hresp, hdec, hcode]
  refine ⟨h500, ?_, ?_⟩
  · intro hcode hlo hhi
    rw [h500 hcode, cooldownDuration_of_range c.config hlo hhi]
  · intro h200 hn500 hn401
    rw [doRequest_settled L h fuel cmd postData tokenLogin c w
      (by rw [henv]; rintro ⟨htl, rb2, h2, h3⟩; cases h2; exact hn401 ⟨htl, h3⟩)]
    simp [settle, hresp, hdec, h200, hn500]

/-- A cooldown of 30 seconds: one sleep of `30 * 10^9` nanoseconds. -/
theorem doRequest_server_error_witness :
    (mockHttpClient.PostForm
        { err := none, statusCode := 200,
          body := "\x7b\"code\":500,\"data\":\x7b\x7d,\"response\":101,\"sn\":\"\"\x7d" }
        World.empty.sent (mkRequest (NewClient (testConfig 3 30)) 500 "" true) =
      .resp 200 "\x7b\"code\":500,\"data\":\x7b\x7d,\"response\":101,\"sn\":\"\"\x7d") ∧
    fixtureLib.decodeBody "\x7b\"code\":500,\"data\":\x7b\x7d,\"response\":101,\"sn\":\"\"\x7d" =
      some { Code := 500, Data := "\x7b\x7d", Response := 101, Sn := "" } ∧
    doRequest fixtureLib
        (mockHttpClient.PostForm
          { err := none, statusCode := 200,
            body := "\x7b\"code\":500,\"data\":\x7b\x7d,\"response\":101,\"sn\":\"\"\x7d" })
        1 500 "" true (NewClient (testConfig 3 30)) World.empty =
      (.error (.jsonCode 500 "\x7b\x7d"), NewClient (testConfig 3 30),
        (World.empty.send (mkRequest (NewClient (testConfig 3 30)) 500 "" true)).sleep
          (1000000000 * 30)) :=
  ⟨rfl, by decide,
    (doRequest_server_error fixtureLib _ 0 500 "" true (NewClient (testConfig 3 30)) World.empty
      "\x7b\"code\":500,\"data\":\x7b\x7d,\"response\":101,\"sn\":\"\"\x7d"
      { Code := 500, Data := "\x7b\x7d", Response := 101, Sn := "" } rfl (by decide)).2.1
      rfl (by decide) (by decide)⟩

/-- C7 (as stated) fails for large cooldowns: with `Cooldown = 9223372037` the
product `time.Second * time.Duration(Cooldown)` overflows and `time.Sleep`
receives a negative duration, not 9223372037 seconds. -/
theorem cooldown_overflow :
    (doRequest fixtureLib
        (mockHttpClient.PostForm
          { err := none, statusCode := 200,
            body := "\x7b\"code\":500,\"data\":\x7b\x7d,\"response\":101,\"sn\":\"\"\x7d" })
        1 500 "" true (NewClient (testConfig 3 9223372037)) World.empty).2.2.slept =
      [-9223372036709551616] ∧
    (-9223372036709551616 : Int) ≠ 1000000000 * 9223372037 := by
  constructor <;> decide


/-! ## Renewal and resubmission -/

theorem Login_sent (L : Stdlib) (h : HttpClient) (fuel : Nat) (c : client) (w : World) :
    ∃ l, (Login L h fuel c w).2.2.sent = l ++ w.sent := by
  cases fuel with
  | zero => exact ⟨[], rfl⟩
  | succ n =>
    cases hans : loginAnswer L (h w.sent (loginRequest L c)) with
    | none =>
      obtain ⟨e, he⟩ := Login_fail L h n c w hans
      exact ⟨[loginRequest L c], by rw [he]; simp [(settle_sent L _ _ _).1, World.send]⟩
    | some d => exact ⟨[loginRequest L c], by rw [Login_ok L h n c w d hans]; rfl⟩

/-- The trace only grows during `doRequest`. -/
theorem doRequest_sent (L : Stdlib) (h : HttpClient) (base : List Request) (fuel : Nat)
    (cmd : Int) (postData : String) (c : client) (w : World) (hw : ∃ l, w.sent = l ++ base) :
    ∃ l, (doRequest L h fuel cmd postData true c w).2.2.sent = l ++ base := by
  apply doRequest_preserves L h (fun _ w1 => ∃ l, w1.sent = l ++ base)
  · intro c1 w1 cmd1 pd1 hP
    obtain ⟨l, hl⟩ := hP
    exact ⟨mkRequest c1 cmd1 pd1 true :: l, by simp [World.send, hl]⟩
  · intro c1 w1 _ hP; exact hP
  · intro c1 w1 _ hP; exact hP
  · intro n c1 w1 hP
    obtain ⟨l, hl⟩ := hP
    obtain ⟨l2, hl2⟩ := Login_sent L h n c1 w1
    exact ⟨l2 ++ l, by rw [hl2, hl, List.append_assoc]⟩
  · intro c1 w1 hP _; exact hP
  · intro c1 w1 hP _; exact hP
  · exact hw

/-- With fuel, the first transmission of `doRequest` is the command built from
the receiver it starts with. -/
theorem doRequest_sent_first (L : Stdlib) (h : HttpClient) (fuel : Nat) (cmd : Int)
    (postData : String) (c : client) (w : World) :
    ∃ l, (doRequest L h (fuel + 1) cmd postData true c w).2.2.sent =
      l ++ mkRequest c cmd postData true :: w.sent := by
  by_cases hexp : ∃ rb, envelope L (h w.sent (mkRequest c cmd postData true)) = some rb ∧
      rb.Code = 401
  · obtain ⟨rb, henv, hcode⟩ := hexp
    rw [doRequest_expired L h fuel cmd postData c w rb henv hcode]
    by_cases hmax : c.retries ≥ c.config.MaxRetries
    · exact ⟨[], by simp [hmax, World.send]⟩
    · by_cases hlog : c.logger = false
      · exact ⟨[], by simp [hmax, hlog, World.send]⟩
      · simp only [hmax, hlog, if_false]
        have hl := Login_sent L h fuel c
          ((w.send (mkRequest c cmd postData true)).print "token expired. attempting to renew")
        revert hl
        generalize Login L h fuel c _ = s
        obtain ⟨o, c3, w3⟩ := s
        intro hl
        simp only [World.send, World.print] at hl
        cases o with
        | ok a => exact doRequest_sent L h _ fuel cmd postData _ w3 hl
        | error e => exact hl
        | fault p => exact hl
        | outOfFuel => exact hl
  · rw [doRequest_settled L h fuel cmd postData true c w (fun hh => hexp hh.2)]
    exact ⟨[], by simp [(settle_sent L _ _ _).1, World.send]⟩

/-- C6: whatever the counter `r < MaxRetries` left by earlier failed renewals,
when a session-required command is answered with code 401 and the login that
the dispatcher then runs succeeds (it runs one exactly when the budget is not
used up and `c.logger` is non-nil), the dispatcher continues as a fresh
`doRequest` of the same command code and payload from a receiver whose counter
is 0 and whose domain and token are those the login stored; the request it
transmits next is built from that domain and token; and it is transmitted once
for that 401: when its answer is not another 401 the call ends after exactly
the three transmissions command, login, command, with the counter at 0. -/
theorem relogin_resets_and_resubmits (L : Stdlib) (h : HttpClient) (fuel : Nat) (cmd : Int)
    (postData : String) (c : client) (w : World) (rb : revogiResponseBody) (d : loginData)
    (henv : envelope L (h w.sent (mkRequest c cmd postData true)) = some rb)
    (hcode : rb.Code = 401)
    (hbudget : c.retries < c.config.MaxRetries) (hlog : c.logger = true)
    (hans : loginAnswer L (h (mkRequest c cmd postData true :: w.sent) (loginRequest L c)) =
      some d) :
    doRequest L h (fuel + 2) cmd postData true c w =
      doRequest L h (fuel + 1) cmd postData true
        { c with domain := d.Domain, token := d.Token, retries := 0 }
        (((w.send (mkRequest c cmd postData true)).print
          "token expired. attempting to renew").send (loginRequest L c)) ∧
    mkRequest { c with domain := d.Domain, token := d.Token, retries := 0 } cmd postData true =
      { url := "https://" ++ (if d.Domain = "" then apiHost else d.Domain) ++
          "/services/ajax.html",
        cmd := toString cmd, json := postData, tokenlogin := some d.Token } ∧
    (∃ rest, (doRequest L h (fuel + 2) cmd postData true c w).2.2.sent =
      rest ++ mkRequest { c with domain := d.Domain, token := d.Token, retries := 0 }
          cmd postData true ::
        loginRequest L c :: mkRequest c cmd postData true :: w.sent) ∧
    ((¬ ∃ rb2, envelope L (h (loginRequest L c :: mkRequest c cmd postData true :: w.sent)
          (mkRequest { c with domain := d.Domain, token := d.Token, retries := 0 }
            cmd postData true)) = some rb2 ∧ rb2.Code = 401) →
      (doRequest L h (fuel + 2) cmd postData true c w).2.1 =
        { c with domain := d.Domain, token := d.Token, retries := 0 } ∧
      (doRequest L h (fuel + 2) cmd postData true c w).2.2.sent =
        mkRequest { c with domain := d.Domain, token := d.Token, retries := 0 }
            cmd postData true ::
          loginRequest L c :: mkRequest c cmd postData true :: w.sent) := by
  have hstep : doRequest L h (fuel + 2) cmd postData true c w =
      doRequest L h (fuel + 1) cmd postData true
        { c with domain := d.Domain, token := d.Token, retries := 0 }
        (((w.send (mkRequest c cmd postData true)).print
          "token expired. attempting to renew").send (loginRequest L c)) := by
    rw [doRequest_expired L h (fuel + 1) cmd postData c w rb henv hcode]
    have hlogin := Login_ok L h fuel c
      ((w.send (mkRequest c cmd postData true)).print "token expired. attempting to renew")
      d hans
    simp only [not_le.mpr hbudget, hlog, if_false, ge_iff_le, Bool.true_eq_false, hlogin]
  refine ⟨hstep, rfl, ?_, ?_⟩
  · rw [hstep]
    exact doRequest_sent_first L h fuel cmd postData _ _
  · intro hno
    rw [hstep, doRequest_settled L h fuel cmd postData true _ _ (fun hh => hno hh.2)]
    exact ⟨rfl, by simp [(settle_sent L _ _ _).1, World.send, World.print]⟩

/-- A client with two failed renewals behind it meets `sessionServer`. -/
theorem relogin_resets_and_resubmits_witness :
    envelope fixtureLib (sessionServer World.empty.sent (mkRequest staleClient 500 "" true)) =
      some { Code := 401, Data := "\"please log in\"", Response := 500, Sn := "" } ∧
    staleClient.retries < staleClient.config.MaxRetries ∧ staleClient.logger = true ∧
    loginAnswer fixtureLib
        (sessionServer (mkRequest staleClient 500 "" true :: World.empty.sent)
          (loginRequest fixtureLib staleClient)) = some sessionLogin ∧
    (doRequest fixtureLib sessionServer 2 500 "" true staleClient World.empty).2.1 =
      { staleClient with domain := "lon.revogi.net", token := "T1", retries := 0 } ∧
    (doRequest fixtureLib sessionServer 2 500 "" true staleClient World.empty).2.2.sent =
      mkRequest { staleClient with domain := "lon.revogi.net", token := "T1", retries := 0 }
          500 "" true ::
        loginRequest fixtureLib staleClient :: mkRequest staleClient 500 "" true ::
          World.empty.sent :=
  ⟨by decide, by decide, by decide, by decide,
    (relogin_resets_and_resubmits fixtureLib sessionServer 0 500 "" staleClient World.empty
      { Code := 401, Data := "\"please log in\"", Response := 500, Sn := "" } sessionLogin
      (by decide) rfl (by decide) (by decide) (by decide)).2.2.2 (by decide)⟩


/-! ## Device statistics -/

/-- After a successful stats command `GetDeviceStats` returns the first
element of the decoded sequence and panics when there is none. -/
theorem GetDeviceStats_decoded (L : Stdlib) (h : HttpClient) (fuel : Nat) (device : Device)
    (c : client) (w : World) (body : String) (rb : revogiResponseBody)
    (data : List DeviceStats)
    (hresp : h w.sent (mkRequest c 511
      (L.marshal [("protocol", .str protocol), ("sn", .strs [device.Sn])]) true) = .resp 200 body)
    (hdec : L.decodeBody body = some rb) (hcode : rb.Code = 200)
    (hdata : L.unmarshalDeviceStats rb.Data = some data) :
    (GetDeviceStats L h (fuel + 1) device c w).1 =
      match data with
      | first :: _ => .ok first
      | [] => .fault .indexOutOfRange := by
  unfold GetDeviceStats
  simp only []
  rw [doRequest_settled L h fuel 511 _ true c w
    (by simp only [envelope, hresp, if_true, hdec]
        rintro ⟨_, rb2, h2, h3⟩; cases h2; omega)]
  simp only [settle, hresp, hdec, hcode, ne_eq, not_true_eq_false, if_false, hdata]
  cases data <;> rfl

/-- C4 (fails on the code): for every device serial, when the stats command
is answered with a code-200 envelope whose data is the empty sequence `[]`,
`GetDeviceStats` indexes element 0 of the empty slice and panics with index
out of range; no `NotFound` error is returned. -/
theorem GetDeviceStats_empty_faults (device : Device) (fuel : Nat) :
    (GetDeviceStats fixtureLib
        (mockHttpClient.PostForm
          { err := none, statusCode := 200,
            body := "\x7b\"code\":200,\"data\":[],\"response\":511,\"sn\":\"\"\x7d" })
        (fuel + 1) device (NewClient (testConfig 0 0)) World.empty).1 =
      .fault .indexOutOfRange := by
  rw [GetDeviceStats_decoded fixtureLib _ fuel device (NewClient (testConfig 0 0)) World.empty
    "\x7b\"code\":200,\"data\":[],\"response\":511,\"sn\":\"\"\x7d"
    { Code := 200, Data := "[]", Response := 511, Sn := "" } [] rfl (by decide) rfl (by decide)]

/-! ## Power -/

theorem splitChars_ne_nil (sep : Char) (l : List Char) : splitChars sep l ≠ [] := by
  cases l with
  | nil => simp [splitChars]
  | cons c cs =>
    unfold splitChars
    split
    · simp
    · split <;> simp

theorem splitChars_of_not_mem (sep : Char) (a : List Char) (ha : sep ∉ a) :
    splitChars sep a = [a] := by
  induction a with
  | nil => rfl
  | cons c cs ih =>
    simp only [List.mem_cons, not_or] at ha
    unfold splitChars
    rw [if_neg (fun hc => ha.1 hc.symm), ih ha.2]

theorem splitChars_append (sep : Char) (a b : List Char) (ha : sep ∉ a) :
    splitChars sep (a ++ sep :: b) = a :: splitChars sep b := by
  induction a with
  | nil => simp [splitChars]
  | cons c cs ih =>
    simp only [List.mem_cons, not_or] at ha
    simp only [List.cons_append]
    conv_lhs => unfold splitChars
    rw [if_neg (fun hc => ha.1 hc.symm), ih ha.2]

theorem splitChars_single (sep : Char) (l f : List Char) (hf : splitChars sep l = [f]) :
    l = f := by
  induction l generalizing f with
  | nil => simpa [splitChars] using hf
  | cons c cs ih =>
    unfold splitChars at hf
    split at hf
    · have := splitChars_ne_nil sep cs
      simp only [List.cons.injEq] at hf
      exact absurd hf.2 this
    · cases hs : splitChars sep cs with
      | nil => exact absurd hs (splitChars_ne_nil sep cs)
      | cons g gs =>
        rw [hs] at hf
        simp only [List.cons.injEq] at hf
        obtain ⟨h1, h2⟩ := hf
        subst h2
        rw [ih g hs, h1]

theorem splitChars_no_sep (sep : Char) (l : List Char) : ∀ f ∈ splitChars sep l, sep ∉ f := by
  induction l with
  | nil => simp [splitChars]
  | cons c cs ih =>
    intro f hf
    unfold splitChars at hf
    split at hf
    · rcases List.mem_cons.1 hf with h1 | h1
      · subst h1; simp
      · exact ih f h1
    · rename_i hne
      cases hs : splitChars sep cs with
      | nil => exact absurd hs (splitChars_ne_nil sep cs)
      | cons g gs =>
        rw [hs] at hf ih
        rcases List.mem_cons.1 hf with h1 | h1
        · subst h1
          have hg := ih g (List.mem_cons_self _ _)
          simp only [List.mem_cons, not_or]
          exact ⟨fun hc => hne hc.symm, hg⟩
        · exact ih f (List.mem_cons_of_mem _ h1)

theorem Split_single (r f : String) (hf : Split r ':' = [f]) : r = f := by
  unfold Split at hf
  cases hs : splitChars ':' r.data with
  | nil => exact absurd hs (splitChars_ne_nil _ _)
  | cons g gs =>
    rw [hs] at hf
    simp only [List.map_cons, List.cons.injEq, List.map_eq_nil_iff] at hf
    obtain ⟨h1, h2⟩ := hf
    subst h2
    have := splitChars_single ':' r.data g hs
    rw [← h1, ← this]

theorem Split_no_colon (r : String) : ∀ f ∈ Split r ':', ':' ∉ f.data := by
  intro f hf
  unfold Split at hf
  obtain ⟨g, hg, rfl⟩ := List.mem_map.1 hf
  exact splitChars_no_sep ':' r.data g hg

theorem Split_send2 (sn : String) (hsn : ':' ∉ sn.data) :
    Split ("send2:" ++ sn) ':' = ["send2", sn] := by
  unfold Split
  have hd : ("send2:" ++ sn).data = ['s', 'e', 'n', 'd', '2'] ++ ':' :: sn.data := by
    rw [String.data_append]; rfl
  rw [hd, splitChars_append ':' _ _ (by decide), splitChars_of_not_mem ':' _ hsn]
  rfl


/-- `Power` after a successful command whose data unquotes to `r`. -/
theorem Power_unquoted (L : Stdlib) (h : HttpClient) (fuel : Nat) (device : Device) (port : Int)
    (state : Bool) (c : client) (w : World) (body : revogiResponseBody) (c1 : client)
    (w1 : World) (r : String)
    (hreq : doRequest L h fuel 200 (powerPayload L device port state) true c w =
      (.ok body, c1, w1))
    (hunq : L.unquote body.Data = some r) :
    (Power L h fuel device port state c w).1 =
      match powerCheck (Split r ':') device.Sn with
      | none => .fault .indexOutOfRange
      | some true => .ok ()
      | some false => .error (.unexpectedResult r) := by
  unfold Power
  unfold powerPayload at hreq
  simp only []
  rw [hreq]
  simp only [hunq]
  cases hp : powerCheck (Split r ':') device.Sn with
  | none => rfl
  | some b => cases b <;> rfl

theorem powerCheck_true_iff (results : List String) (sn : String) :
    powerCheck results sn = some true ↔ ∃ rest, results = "send2" :: sn :: rest := by
  unfold powerCheck
  cases results with
  | nil => simp
  | cons r0 rest =>
    by_cases h0 : r0 = "send2"
    · subst h0
      cases rest with
      | nil => simp
      | cons r1 more => simp
    · simp [h0]

theorem powerCheck_none_iff (results : List String) (sn : String) :
    powerCheck results sn = none ↔ results = [] ∨ results = ["send2"] := by
  unfold powerCheck
  cases results with
  | nil => simp
  | cons r0 rest =>
    by_cases h0 : r0 = "send2"
    · subst h0
      cases rest with
      | nil => simp
      | cons r1 more => simp
    · simp [h0]

/-- C3 (amended): after a successful power-set envelope whose data unquotes to
`r`, `Power` returns no error exactly when the first two `:`-separated fields
of `r` are `send2` and the request serial (further fields are ignored). Hence
for a serial without `:` the string `"send2:" ++ serial` succeeds, and no `r`
succeeds for a serial that contains `:`. Every `r` other than the one-field
string `send2` that does not succeed yields the `unexpected result` error. -/
theorem Power_result (L : Stdlib) (h : HttpClient) (fuel : Nat) (device : Device) (port : Int)
    (state : Bool) (c : client) (w : World) (body : revogiResponseBody) (c1 : client)
    (w1 : World) (r : String)
    (hreq : doRequest L h fuel 200 (powerPayload L device port state) true c w =
      (.ok body, c1, w1))
    (hunq : L.unquote body.Data = some r) :
    ((Power L h fuel device port state c w).1 = .ok () ↔
      ∃ rest, Split r ':' = "send2" :: device.Sn :: rest) ∧
    (r ≠ "send2" →
      (Power L h fuel device port state c w).1 = .ok () ∨
      (Power L h fuel device port state c w).1 = .error (.unexpectedResult r)) ∧
    (':' ∉ device.Sn.data → r = "send2:" ++ device.Sn →
      (Power L h fuel device port state c w).1 = .ok ()) ∧
    (':' ∈ device.Sn.data → (Power L h fuel device port state c w).1 ≠ .ok ()) := by
  have hP := Power_unquoted L h fuel device port state c w body c1 w1 r hreq hunq
  have hiff : (Power L h fuel device port state c w).1 = .ok () ↔
      ∃ rest, Split r ':' = "send2" :: device.Sn :: rest := by
    rw [hP, ← powerCheck_true_iff]
    cases hp : powerCheck (Split r ':') device.Sn with
    | none => simp
    | some b => cases b <;> simp
  refine ⟨hiff, ?_, ?_, ?_⟩
  · intro hne
    rw [hP]
    cases hp : powerCheck (Split r ':') device.Sn with
    | none =>
      rcases (powerCheck_none_iff _ _).1 hp with h1 | h1
      · unfold Split at h1
        simp only [List.map_eq_nil_iff] at h1
        exact absurd h1 (splitChars_ne_nil _ _)
      · exact absurd (Split_single r "send2" h1) hne
    | some b => cases b <;> simp
  · intro hsn hr
    rw [hiff, hr, Split_send2 device.Sn hsn]
    exact ⟨[], rfl⟩
  · intro hsn hok
    obtain ⟨rest, hrest⟩ := hiff.1 hok
    have := Split_no_colon r device.Sn (by rw [hrest]; simp)
    exact this hsn

/-- The answer of `TestClient_Power`: data `"send2:SWW1234"` for serial `SWW1234`. -/
theorem Power_result_witness :
    doRequest fixtureLib (mockPower "send2:SWW1234").PostForm 1 200
        (powerPayload fixtureLib (deviceSn "SWW1234") 0 true) true
        (NewClient (testConfig 0 0)) World.empty =
      (.ok { Code := 200, Data := "\"send2:SWW1234\"", Response := 200, Sn := "SWW1234" },
        NewClient (testConfig 0 0),
        World.empty.send (mkRequest (NewClient (testConfig 0 0)) 200
          (powerPayload fixtureLib (deviceSn "SWW1234") 0 true) true)) ∧
    fixtureLib.unquote "\"send2:SWW1234\"" = some "send2:SWW1234" ∧
    (Power fixtureLib (mockPower "send2:SWW1234").PostForm 1 (deviceSn "SWW1234") 0 true
        (NewClient (testConfig 0 0)) World.empty).1 = .ok () :=
  ⟨by decide, by decide,
    (Power_result fixtureLib (mockPower "send2:SWW1234").PostForm 1 (deviceSn "SWW1234") 0 true
      (NewClient (testConfig 0 0)) World.empty
      { Code := 200, Data := "\"send2:SWW1234\"", Response := 200, Sn := "SWW1234" }
      (NewClient (testConfig 0 0))
      (World.empty.send (mkRequest (NewClient (testConfig 0 0)) 200
        (powerPayload fixtureLib (deviceSn "SWW1234") 0 true) true))
      "send2:SWW1234" (by decide) (by decide)).2.2.1 (by decide) (by decide)⟩

/-- C3 (as stated) fails: for serial `SWW1234` the data `"send2:SWW1234:x"`
unquotes to a string different from `send2:SWW1234`, yet `Power` returns no
error. -/
theorem Power_accepts_extra_fields :
    fixtureLib.unquote "\"send2:SWW1234:x\"" = some "send2:SWW1234:x" ∧
    "send2:SWW1234:x" ≠ "send2:" ++ (deviceSn "SWW1234").Sn ∧
    (Power fixtureLib (mockPower "send2:SWW1234:x").PostForm 1 (deviceSn "SWW1234") 0 true
        (NewClient (testConfig 0 0)) World.empty).1 = .ok () := by
  refine ⟨by decide, by decide, by decide⟩

/-- The one-field answer `send2`: `results[1]` is out of range and `Power`
panics. -/
theorem Power_single_field_faults :
    (Power fixtureLib (mockPower "send2").PostForm 1 (deviceSn "SWW1234") 0 true
        (NewClient (testConfig 0 0)) World.empty).1 = .fault .indexOutOfRange := by
  decide


/-! ## Renewal that never ends -/

theorem GetDevices_outOfFuel (L : Stdlib) (h : HttpClient) (fuel : Nat) (c : client) (w : World)
    (hout : (doRequest L h fuel 500
      (L.marshal [("protocol", .str protocol), ("dev", .str "all")]) true c w).1 = .outOfFuel) :
    (GetDevices L h fuel c w).1 = .outOfFuel := by
  unfold GetDevices
  simp only []
  revert hout
  generalize doRequest L h fuel 500 _ true c w = s
  obtain ⟨o, c1, w1⟩ := s
  intro hout
  simp only at hout
  subst hout
  rfl

theorem loginCount_send_session (c : client) (cmd : Int) (postData : String) (w : World) :
    loginCount (w.send (mkRequest c cmd postData true)).sent = loginCount w.sent := by
  simp [loginCount, World.send, mkRequest, List.filter]

theorem loginCount_send_login (L : Stdlib) (c : client) (w : World) :
    loginCount (w.send (loginRequest L c)).sent = loginCount w.sent + 1 := by
  simp [loginCount, World.send, loginRequest, mkRequest, List.filter]

theorem rejectingServer_session (hist : List Request) (c : client) (cmd : Int)
    (postData : String) :
    rejectingServer hist (mkRequest c cmd postData true) =
      .resp 200 "\x7b\"code\":401,\"data\":\"please log in\",\"response\":500,\"sn\":\"\"\x7d" := rfl

theorem rejectingServer_login (hist : List Request) (c : client) :
    rejectingServer hist (loginRequest fixtureLib c) =
      .resp 200 "\x7b\"code\":200,\"data\":\x7b\x7d,\"response\":101,\"sn\":\"\"\x7d" := rfl

/-- Against `rejectingServer` a renewal always succeeds and the resubmitted
command is always refused: `doRequest` uses up any amount of fuel, one login
per activation. -/
theorem rejectingServer_loop (cmd : Int) (postData : String) :
    ∀ (fuel : Nat) (c : client) (w : World), c.logger = true → 0 < c.config.MaxRetries →
      c.retries < c.config.MaxRetries →
      (doRequest fixtureLib rejectingServer fuel cmd postData true c w).1 = .outOfFuel ∧
      loginCount (doRequest fixtureLib rejectingServer fuel cmd postData true c w).2.2.sent =
        loginCount w.sent + (fuel - 1) := by
  intro fuel
  induction fuel with
  | zero => intro c w _ _ _; exact ⟨rfl, rfl⟩
  | succ n ih =>
    intro c w hlog hpos hlt
    have henv : envelope fixtureLib (rejectingServer w.sent (mkRequest c cmd postData true)) =
        some { Code := 401, Data := "\"please log in\"", Response := 500, Sn := "" } := by
      rw [rejectingServer_session]; decide
    rw [doRequest_expired fixtureLib rejectingServer n cmd postData c w _ henv rfl]
    simp only [not_le.mpr hlt, hlog, if_false, ge_iff_le, Bool.true_eq_false]
    cases n with
    | zero =>
      simp [Login_zero, World.print, loginCount_send_session]
    | succ m =>
      have hans : loginAnswer fixtureLib
          (rejectingServer
            ((w.send (mkRequest c cmd postData true)).print
              "token expired. attempting to renew").sent
            (loginRequest fixtureLib c)) =
          some { UserId := "", Domain := "", Name := "", RegId := "", Avatar := "",
                 Message := "", Url := "", Token := "" } := by
        rw [rejectingServer_login]; decide
      rw [Login_ok fixtureLib rejectingServer m c _ _ hans]
      simp only
      have := ih { c with domain := "", token := "", retries := 0 }
        (((w.send (mkRequest c cmd postData true)).print
          "token expired. attempting to renew").send (loginRequest fixtureLib c))
        hlog hpos hpos
      refine ⟨this.1, ?_⟩
      rw [this.2, loginCount_send_login]
      simp only [World.print]
      rw [loginCount_send_session]
      omega

/-- C2 (fails on the code): with `MaxRetries = 1`, against a transport that
answers every login with a successful envelope and every session-required
command with code 401, a single call of the dispatcher does not terminate:
whatever the fuel, the run is cut off, and by then it has performed
`fuel - 1` logins, more than any bound. -/
theorem doRequest_renewal_loop (fuel : Nat) :
    (GetDevices fixtureLib rejectingServer fuel (NewClient (testConfig 1 0)) World.empty).1 =
      .outOfFuel ∧
    loginCount
        (GetDevices fixtureLib rejectingServer fuel (NewClient (testConfig 1 0))
          World.empty).2.2.sent = fuel - 1 := by
  have hl := rejectingServer_loop 500
    (fixtureLib.marshal [("protocol", .str protocol), ("dev", .str "all")]) fuel
    (NewClient (testConfig 1 0)) World.empty (by decide) (by decide) (by decide)
  refine ⟨GetDevices_outOfFuel _ _ _ _ _ hl.1, ?_⟩
  rw [GetDevices_state, hl.2]
  simp [loginCount, World.empty]


/-! ## The retry budget against a transport that always answers 401 -/

theorem mock401_always : Always401 fixtureLib mock401.PostForm := by
  intro hist req
  have hr : mock401.PostForm hist req =
      .resp 200 "\x7b\"code\":401,\"data\":\"please log in\",\"response\":500,\"sn\":\"\"\x7d" := rfl
  exact ⟨{ Code := 401, Data := "\"please log in\"", Response := 500, Sn := "" },
    by rw [hr]; decide, rfl⟩

theorem loginAnswer_of_always401 (L : Stdlib) (h : HttpClient) (hall : Always401 L h)
    (hist : List Request) (req : Request) : loginAnswer L (h hist req) = none := by
  obtain ⟨rb, henv, hcode⟩ := hall hist req
  simp [loginAnswer, henv, hcode]

/-- Below the budget and with a logger, a call sends the command, attempts
one login, which fails, counts it and fails with `renew failed`. -/
theorem renew_fails_step (L : Stdlib) (h : HttpClient) (hall : Always401 L h) (fuel : Nat)
    (cmd : Int) (postData : String) (c : client) (w : World) (hlog : c.logger = true)
    (hlt : c.retries < c.config.MaxRetries) :
    ∃ e w1, doRequest L h (fuel + 2) cmd postData true c w =
        (.error (.renewFailed e), { c with retries := c.retries + 1 }, w1) ∧
      loginCount w1.sent = loginCount w.sent + 1 := by
  obtain ⟨rb, henv, hcode⟩ := hall w.sent (mkRequest c cmd postData true)
  rw [doRequest_expired L h (fuel + 1) cmd postData c w rb henv hcode]
  obtain ⟨e, he⟩ := Login_fail L h fuel c
    ((w.send (mkRequest c cmd postData true)).print "token expired. attempting to renew")
    (loginAnswer_of_always401 L h hall _ _)
  rw [if_neg (not_le.mpr hlt), if_neg (by simp [hlog]), he]
  refine ⟨e, _, rfl, ?_⟩
  rw [(settle_sent L _ _ _).1, loginCount_send_login]
  simp only [World.print]
  rw [loginCount_send_session]

/-- With the budget used up a call sends the command and fails with the
budget error; no login is attempted. -/
theorem exhausted_step (L : Stdlib) (h : HttpClient) (hall : Always401 L h) (fuel : Nat)
    (cmd : Int) (postData : String) (c : client) (w : World)
    (hmax : c.retries ≥ c.config.MaxRetries) :
    doRequest L h (fuel + 1) cmd postData true c w =
      (.error (.maxRenewals c.config.MaxRetries), c, w.send (mkRequest c cmd postData true)) := by
  obtain ⟨rb, henv, hcode⟩ := hall w.sent (mkRequest c cmd postData true)
  rw [doRequest_expired L h fuel cmd postData c w rb henv hcode]
  simp [hmax]

/-- A client with a logger and `k` renewals left, against a transport that
always answers 401: of any series of session-required commands the first `k`
fail with `renew failed` after one failed login each, every later one fails
with the budget error; `min k m` logins are attempted over `m` calls. -/
theorem issue_always401 (L : Stdlib) (h : HttpClient) (hall : Always401 L h) (fuel : Nat) :
    ∀ (cmds : List (Int × String)) (k : Nat) (c : client) (w : World), c.logger = true →
      c.config.MaxRetries = c.retries + k →
      (∀ i o, (issue L h (fuel + 2) cmds c w).1[i]? = some o →
        (i < k → ∃ e, o = .error (.renewFailed e)) ∧
        (k ≤ i → o = .error (.maxRenewals c.config.MaxRetries))) ∧
      (issue L h (fuel + 2) cmds c w).1.length = cmds.length ∧
      (issue L h (fuel + 2) cmds c w).2.1.retries = c.retries + min k cmds.length ∧
      loginCount (issue L h (fuel + 2) cmds c w).2.2.sent =
        loginCount w.sent + min k cmds.length := by
  intro cmds
  induction cmds with
  | nil => intro k c w _ _; simp [issue]
  | cons x rest ih =>
    intro k c w hlog hk
    obtain ⟨cmd, postData⟩ := x
    cases k with
    | zero =>
      have hmax : c.retries ≥ c.config.MaxRetries := by rw [hk]; simp
      have hstep := exhausted_step L h hall (fuel + 1) cmd postData c w hmax
      have hi := ih 0 c (w.send (mkRequest c cmd postData true)) hlog hk
      simp only [issue, hstep]
      refine ⟨?_, by simp [hi.2.1], by simpa using hi.2.2.1, ?_⟩
      · intro i o hio
        cases i with
        | zero =>
          simp only [List.getElem?_cons_zero, Option.some.injEq] at hio
          exact ⟨fun hlt => absurd hlt (by omega), fun _ => hio.symm⟩
        | succ j =>
          simp only [List.getElem?_cons_succ] at hio
          exact ⟨fun hlt => absurd hlt (by omega), fun _ => (hi.1 j o hio).2 (by omega)⟩
      · rw [hi.2.2.2, loginCount_send_session]; simp
    | succ k1 =>
      have hlt : c.retries < c.config.MaxRetries := by rw [hk]; push_cast; omega
      obtain ⟨e, w1, hstep, hcount⟩ := renew_fails_step L h hall fuel cmd postData c w hlog hlt
      have hi := ih k1 { c with retries := c.retries + 1 } w1 hlog
        (by simp only; rw [hk]; push_cast; omega)
      simp only [issue, hstep]
      refine ⟨?_, by simp [hi.2.1], ?_, ?_⟩
      · intro i o hio
        cases i with
        | zero =>
          simp only [List.getElem?_cons_zero, Option.some.injEq] at hio
          exact ⟨fun _ => ⟨e, hio.symm⟩, fun hle => absurd hle (by omega)⟩
        | succ j =>
          simp only [List.getElem?_cons_succ] at hio
          exact ⟨fun hlt => (hi.1 j o hio).1 (by omega), fun hle => (hi.1 j o hio).2 (by omega)⟩
      · rw [hi.2.2.1]
        simp only [List.length_cons]
        push_cast
        omega
      · rw [hi.2.2.2, hcount]
        simp only [List.length_cons]
        omega

/-- Without a logger and below the budget, a call answered with 401 panics in
`c.logger.Println` after its transmission; nothing else happens. -/
theorem issue_nil_logger (L : Stdlib) (h : HttpClient) (hall : Always401 L h) (fuel : Nat) :
    ∀ (cmds : List (Int × String)) (c : client) (w : World), c.logger = false →
      c.retries < c.config.MaxRetries →
      (issue L h (fuel + 1) cmds c w).1 = List.replicate cmds.length (.fault .nilPointer) ∧
      (issue L h (fuel + 1) cmds c w).2.1 = c ∧
      loginCount (issue L h (fuel + 1) cmds c w).2.2.sent = loginCount w.sent := by
  intro cmds
  induction cmds with
  | nil => intro c w _ _; simp [issue]
  | cons x rest ih =>
    intro c w hlog hlt
    obtain ⟨cmd, postData⟩ := x
    obtain ⟨rb, henv, hcode⟩ := hall w.sent (mkRequest c cmd postData true)
    have hstep : doRequest L h (fuel + 1) cmd postData true c w =
        (.fault .nilPointer, c, w.send (mkRequest c cmd postData true)) := by
      rw [doRequest_expired L h fuel cmd postData c w rb henv hcode]
      simp [not_le.mpr hlt, hlog]
    have hi := ih c (w.send (mkRequest c cmd postData true)) hlog hlt
    simp only [issue, hstep]
    refine ⟨by simp [hi.1, List.replicate_succ], hi.2.1, ?_⟩
    rw [hi.2.2, loginCount_send_session]

/-- C1 (fails on the code): `NewClient` stores a logger only when
`Config.Logger` is nil. A client built from a configuration that supplies a
logger, with `MaxRetries = n + 1`, against the always-401 mock: every call of
a series of session-required commands panics on the nil `c.logger`; no login
is ever attempted and no call fails with the budget error. -/
theorem renewal_with_configured_logger_faults (n fuel : Nat) (cmds : List (Int × String)) :
    (issue fixtureLib mock401.PostForm (fuel + 1) cmds (NewClient (loggingConfig (n + 1)))
        World.empty).1 = List.replicate cmds.length (.fault .nilPointer) ∧
    (issue fixtureLib mock401.PostForm (fuel + 1) cmds (NewClient (loggingConfig (n + 1)))
        World.empty).2.1 = NewClient (loggingConfig (n + 1)) ∧
    loginCount (issue fixtureLib mock401.PostForm (fuel + 1) cmds
        (NewClient (loggingConfig (n + 1))) World.empty).2.2.sent = 0 := by
  have hlt : (NewClient (loggingConfig (n + 1))).retries <
      (NewClient (loggingConfig (n + 1))).config.MaxRetries := by
    simp only [NewClient, loggingConfig, testConfig]
    omega
  exact issue_nil_logger fixtureLib mock401.PostForm mock401_always fuel cmds
    (NewClient (loggingConfig (n + 1))) World.empty rfl hlt


/-- A client that has a logger, starts with counter 0 and has `MaxRetries = n`,
against a transport that always answers 401: of any series of
session-required commands exactly the first `n` fail after one failed
re-login each, the call number `n + 1` and all later ones fail with the
budget error, and at most `n` logins are attempted in total. -/
theorem budget_exhausted_after (L : Stdlib) (h : HttpClient) (hall : Always401 L h)
    (fuel n : Nat) (cmds : List (Int × String)) (c : client) (w : World)
    (hlog : c.logger = true) (hr : c.retries = 0) (hn : c.config.MaxRetries = n) :
    (∀ i o, (issue L h (fuel + 2) cmds c w).1[i]? = some o →
      (i < n → ∃ e, o = .error (.renewFailed e)) ∧
      (n ≤ i → o = .error (.maxRenewals n))) ∧
    (issue L h (fuel + 2) cmds c w).1.length = cmds.length ∧
    loginCount (issue L h (fuel + 2) cmds c w).2.2.sent =
      loginCount w.sent + min n cmds.length ∧
    min n cmds.length ≤ n := by
  have hk : c.config.MaxRetries = c.retries + (n : Int) := by rw [hr, hn]; simp
  have hi := issue_always401 L h hall fuel cmds n c w hlog hk
  rw [hn] at hi
  exact ⟨hi.1, hi.2.1, hi.2.2.2, Nat.min_le_left _ _⟩

/-! ## The tests of `revogi_test.go` on the model -/

/-- `TestRevogi_LoginOk`. -/
theorem test_LoginOk :
    (Login fixtureLib
        (mockHttpClient.PostForm
          { err := none, statusCode := 200,
            body := "\x7b\"code\":200,\"data\":\x7b\x7d,\"response\":101,\"sn\":\"\"\x7d" })
        1 (NewClient (testConfig 0 0)) World.empty).1 = .ok () := by
  decide

/-- `TestRevogi_LoginHttpNonOk`. -/
theorem test_LoginHttpNonOk :
    (Login fixtureLib
        (mockHttpClient.PostForm
          { err := none, statusCode := 500,
            body := "\x7b\"code\":500,\"data\":\x7b\x7d,\"response\":101,\"sn\":\"\"\x7d" })
        1 (NewClient (testConfig 0 0)) World.empty).1 =
      .error (.loginRequest (.httpStatus 500)) := by
  decide

/-- `TestRevogi_LoginErr`. -/
theorem test_LoginErr :
    (Login fixtureLib
        (mockHttpClient.PostForm { err := some "failed to login", statusCode := 0, body := "" })
        1 (NewClient (testConfig 0 0)) World.empty).1 =
      .error (.loginRequest (.postFailed "failed to login")) := by
  decide

/-- `TestClient_GetDevicesNeedLogin`: `MaxRetries = 3`, every answer is 401. -/
theorem test_GetDevicesNeedLogin :
    (GetDevices fixtureLib mock401.PostForm 2 (NewClient (testConfig 3 0)) World.empty).1 =
      .error (.renewFailed (.loginRequest (.jsonCode 401 "\"please log in\""))) := by
  decide

/-- `TestClient_MaxRetriesReached`: `MaxRetries = 0`, the first call fails with
the budget error after its single transmission and without a login. -/
theorem test_MaxRetriesReached :
    (GetDevices fixtureLib mock401.PostForm 1 (NewClient (testConfig 0 0)) World.empty).1 =
      .error (.maxRenewals 0) ∧
    loginCount
      (GetDevices fixtureLib mock401.PostForm 1 (NewClient (testConfig 0 0))
        World.empty).2.2.sent = 0 ∧
    (GetDevices fixtureLib mock401.PostForm 1 (NewClient (testConfig 0 0))
      World.empty).2.2.sent.length = 1 := by
  refine ⟨by decide, by decide, by decide⟩

/-- `TestClient_Power`. -/
theorem test_Power :
    (Power fixtureLib (mockPower "send2:SWW1234").PostForm 1 (deviceSn "SWW1234") 0 true
      (NewClient (testConfig 0 0)) World.empty).1 = .ok () := by
  decide

end Revogi
